import Mathlib

/-!
Verification development for the check-type repository: a runtime
type-schema interpreter that checks Javascript values against a compact
type schema and produces readable diagnostics.

The embedding translates, from the sources:
  - shared/type-definitions.ts : the TypeNode algebra, resolveType, isEnum,
    indent, typeToString
  - shared/check-type.ts : checkSpecialStringType, computePropertiesOfType,
    checkValueAgainstType, checkValueAgainstTypeHelper, valueToShortString,
    handleTypecheckingError, ith, typeToShortString
  - shared/validators.ts : the string-format validators
  - shared/language.ts : hasProperty, objectToJson, assertNonNull, mapEnum
  - tools/types/generate-schema.ts : the node the emitted assert-format
    functions pass to the checker

Javascript runtime values are modelled as JSON-like data (the inductive
Value below). The model follows ECMAScript semantics for typeof,
Object.keys, the in operator and JSON.stringify on such data values;
prototype-inherited members of Object.prototype are not modelled.
Recursion in the source is unbounded (reference chains and heritage
graphs can diverge); the model makes every recursion total with an
explicit fuel argument, and fuel exhaustion is reported as the
Exc.fuelOut error, standing for the stack exhaustion the Javascript
runtime would produce.  Thrown exceptions are modelled with Except:
Exc.typechecking is the TypecheckingError class (the CheckFailure
sentinel), Exc.schemaError is a plain new Error(...) thrown by the
repository code, Exc.jsError is a TypeError raised by a Javascript
builtin (Object.keys on null).
-/

namespace CheckType

/-! ## Generic string utilities (kernel-computable replacements for the
Javascript string operations used by the sources) -/

/-- Join a list of strings with a separator, like Array.prototype.join. -/
def joinSep (sep : String) : List String → String
  | [] => ""
  | [s] => s
  | s :: rest => s ++ sep ++ joinSep sep rest

/-- Join with a newline: errors.join of the union loop. -/
def joinNl (l : List String) : String := joinSep "\n" l

def splitNlAux (cur : List Char) : List Char → List (List Char)
  | [] => [cur.reverse]
  | c :: cs => if c = '\n' then cur.reverse :: splitNlAux [] cs else splitNlAux (c :: cur) cs

/-- Split on newline characters, like the Javascript split of a message
into lines. -/
def splitNl (s : String) : List String :=
  (splitNlAux [] s.toList).map (fun l => String.mk l)

def replNlAux (extra : String) : List Char → String
  | [] => ""
  | c :: cs => (if c = '\n' then "\n" ++ extra else String.mk [c]) ++ replNlAux extra cs

/-- From type-definitions.ts: indent(s) prefixes two spaces after every
newline in its argument (the default indent argument of the source). -/
def indent (s : String) : String := replNlAux "  " s.toList

def strContainsAux (needle : List Char) : List Char → Bool
  | [] => needle.isEmpty
  | c :: cs => (needle.isPrefixOf (c :: cs)) || strContainsAux needle cs

/-- String.prototype.includes. -/
def strContains (hay needle : String) : Bool := strContainsAux needle.toList hay.toList

def isJsSpace (c : Char) : Bool :=
  c = ' ' || c = '\t' || c = '\n' || c = '\r' ||
  c = (Char.ofNat 11) || c = (Char.ofNat 12) || c = (Char.ofNat 160) || c = (Char.ofNat 65279)

/-- String.prototype.trim over the usual whitespace characters. -/
def jsTrim (s : String) : String :=
  String.mk (((s.toList.dropWhile isJsSpace).reverse.dropWhile isJsSpace).reverse)

def isDigitC (c : Char) : Bool := '0' ≤ c && c ≤ '9'

def isHexC (c : Char) : Bool :=
  isDigitC c || ('a' ≤ c && c ≤ 'f') || ('A' ≤ c && c ≤ 'Z' && c ≤ 'F')

def digitsToNat (acc : Nat) : List Char → Nat
  | [] => acc
  | c :: cs => digitsToNat (acc * 10 + (c.toNat - '0'.toNat)) cs

/-- Parse a canonical decimal array-index string (digits, no leading zero
except the string 0), the keys Javascript treats as array indices. -/
def parseIdx (s : String) : Option Nat :=
  let cs := s.toList
  if cs ≠ [] && cs.all isDigitC && (cs.head? = some '0' → cs = ['0']) then
    some (digitsToNat 0 cs)
  else none

/-- A single-quote character, used pervasively in the diagnostic messages. -/
def q1 : String := "\x27"

/-- Wrap a string in single quotes, the arrow function used in the
Expected-one-of messages. -/
def quote1 (s : String) : String := q1 ++ s ++ q1

/-! ## Javascript runtime values -/

/-- A Javascript runtime value, restricted to JSON-like data (the values
the validators are meant for: API payloads, database rows, file
contents).  Numbers are modelled as integers; the spec leaves NaN and
Infinity as an open question and no claim touches non-integer
arithmetic. -/
inductive Value where
  | undefined
  | null
  | bool (b : Bool)
  | num (n : Int)
  | str (s : String)
  | arr (elems : List Value)
  | obj (fields : List (String × Value))

/-- The typeof operator. typeof null is the string object, and arrays are
objects too. -/
def jsTypeof : Value → String
  | .undefined => "undefined"
  | .null => "object"
  | .bool _ => "boolean"
  | .num _ => "number"
  | .str _ => "string"
  | .arr _ => "object"
  | .obj _ => "object"

def Value.isUndef : Value → Bool
  | .undefined => true
  | _ => false

/-- Read the string payload of a value known (by a typeof guard) to be a
string; the `value as string` casts of the source. -/
def Value.asString : Value → String
  | .str s => s
  | _ => ""

def lookupField : List (String × Value) → String → Option Value
  | [], _ => none
  | (k, v) :: rest, name => if k == name then some v else lookupField rest name

/-- Property read value[k]: own properties of objects, index and length
reads on arrays, undefined otherwise. -/
def getProp : Value → String → Value
  | .obj fs, k => (lookupField fs k).getD .undefined
  | .arr es, k =>
    if k == "length" then .num es.length
    else match parseIdx k with
      | some i => (es.get? i).getD .undefined
      | none => .undefined
  | _, _ => .undefined

/-- Object.keys: own enumerable keys; index strings for arrays (length is
not enumerable). -/
def objectKeys : Value → List String
  | .obj fs => fs.map (fun f => f.1)
  | .arr es => (List.range es.length).map (fun i => toString i)
  | _ => []

/-- The error class Javascript exceptions are modelled with; see the
header comment. -/
inductive Exc where
  | typechecking (msg : String)
  | schemaError (msg : String)
  | jsError (msg : String)
  | fuelOut
  deriving DecidableEq

/-- Only Exc.typechecking is the TypecheckingError class; everything else
escapes the checker. -/
def Exc.isCheckFailure : Exc → Bool
  | .typechecking _ => true
  | _ => false

/-- The message carried by an exception; exceptionToString of
language.ts restricted to the message part (stack traces are not
modelled). -/
def Exc.message : Exc → String
  | .typechecking m => m
  | .schemaError m => m
  | .jsError m => m
  | .fuelOut => "Maximum call stack size exceeded"

/-- Object.keys as called by the checker after a typeof object guard:
null also has typeof object, and Object.keys(null) throws a TypeError. -/
def objectKeysE : Value → Except Exc (List String)
  | .obj fs => .ok (objectKeys (.obj fs))
  | .arr es => .ok (objectKeys (.arr es))
  | _ => .error (.jsError "TypeError: Cannot convert undefined or null to object")

/-- hasProperty of language.ts: typeof value is object, value is not
null, the key is present, and the stored value is not undefined. -/
def hasProperty (v : Value) (k : String) : Bool :=
  match v with
  | .obj fs => (fs.any (fun f => f.1 == k)) && !(getProp v k).isUndef
  | .arr es =>
    ((match parseIdx k with | some i => i < es.length | none => false) || k == "length")
      && !(getProp v k).isUndef
  | _ => false

/-! ## JSON serialisation (JSON.stringify, compact and 2-space pretty) -/

def jsonQuoteChar (c : Char) : String :=
  if c = '"' then "\\\""
  else if c = '\\' then "\\\\"
  else if c = '\n' then "\\n"
  else if c = '\r' then "\\r"
  else if c = '\t' then "\\t"
  else String.mk [c]

def jsonQuoteAux : List Char → String
  | [] => ""
  | c :: cs => jsonQuoteChar c ++ jsonQuoteAux cs

/-- JSON string literal with the usual escapes. -/
def jsonQuote (s : String) : String := "\"" ++ jsonQuoteAux s.toList ++ "\""

mutual
/-- JSON.stringify(value) with no spacing.  Callers only apply it to
values of typeof object (JSON.stringify of the undefined value is the
undefined value, not a string; that case is unreachable here). -/
def jsonCompact : Value → String
  | .undefined => "undefined"
  | .null => "null"
  | .bool b => if b then "true" else "false"
  | .num n => toString n
  | .str s => jsonQuote s
  | .arr es => "[" ++ joinSep "," (jsonArrItems es) ++ "]"
  | .obj fs => "\x7b" ++ joinSep "," (jsonObjItems fs) ++ "\x7d"

def jsonArrItems : List Value → List String
  | [] => []
  | v :: vs => (match v with
      | .undefined => "null"
      | w => jsonCompact w) :: jsonArrItems vs

def jsonObjItems : List (String × Value) → List String
  | [] => []
  | (k, v) :: fs => match v with
      | .undefined => jsonObjItems fs
      | w => (jsonQuote k ++ ":" ++ jsonCompact w) :: jsonObjItems fs
end

mutual
/-- JSON.stringify(value, null, 2): pretty form with two-space
indentation, as produced at the current indentation prefix ind. -/
def jsonPretty (ind : String) : Value → String
  | .undefined => "undefined"
  | .null => "null"
  | .bool b => if b then "true" else "false"
  | .num n => toString n
  | .str s => jsonQuote s
  | .arr es => match jsonPrettyArrItems (ind ++ "  ") es with
      | [] => "[]"
      | items => "[\n" ++ joinSep ",\n" (items.map (fun s => ind ++ "  " ++ s)) ++ "\n" ++ ind ++ "]"
  | .obj fs => match jsonPrettyObjItems (ind ++ "  ") fs with
      | [] => "\x7b\x7d"
      | items => "\x7b\n" ++ joinSep ",\n" (items.map (fun s => ind ++ "  " ++ s)) ++ "\n" ++ ind ++ "\x7d"

def jsonPrettyArrItems (ind : String) : List Value → List String
  | [] => []
  | v :: vs => (match v with
      | .undefined => "null"
      | w => jsonPretty ind w) :: jsonPrettyArrItems ind vs

def jsonPrettyObjItems (ind : String) : List (String × Value) → List String
  | [] => []
  | (k, v) :: fs => match v with
      | .undefined => jsonPrettyObjItems ind fs
      | w => (jsonQuote k ++ ": " ++ jsonPretty ind w) :: jsonPrettyObjItems ind fs
end

/-- objectToJson of language.ts: undefined prints as undefined, anything
else as pretty JSON. -/
def objectToJson (v : Value) : String :=
  match v with
  | .undefined => "undefined"
  | w => jsonPretty "" w

/-! ## The TypeNode algebra (type-definitions.ts) -/

/-- A TypeNode.  Every constructor carries the optional declared name
(the nm argument); the filename and ignoreChanges attributes are
advisory for the persistence layer, are never read by the modelled
operations, and are omitted.  The partial kind is named partialT and the
interface kind interfaceT because those words are not usable as Lean
constructor names. -/
inductive Ty where
  | str (specialName : Option String) (nm : Option String)
  | num (nm : Option String)
  | bool (nm : Option String)
  | null (nm : Option String)
  | undefined (nm : Option String)
  | unknown (nm : Option String)
  | strLit (value : String) (nm : Option String)
  | numLit (value : Int) (nm : Option String)
  | boolLit (value : Bool) (nm : Option String)
  | array (elementType : Ty) (nm : Option String)
  | interfaceT (fields : List (String × Bool × Ty)) (heritage : List Ty) (nm : Option String)
  | union (unionMembers : List Ty) (kinds : Option (List String)) (nm : Option String)
  | intersection (intersectionMembers : List Ty) (nm : Option String)
  | mapped (mapFrom : Ty) (optional : Bool) (mapTo : Ty) (nm : Option String)
  | indexSignature (keyType : Ty) (valueType : Ty) (nm : Option String)
  | omitT (base : Ty) (omittedFields : List String) (nm : Option String)
  | keyof (base : Ty) (nm : Option String)
  | partialT (elementType : Ty) (nm : Option String)
  | ref (referencedTypeName : String) (nm : Option String)

/-- A field of an interface: name, optional flag, type. -/
abbrev FieldT : Type := String × Bool × Ty

/-- The types map of a Schema: type name to TypeNode, first binding
wins.  The assertedTypes list of the source Schema record is not read by
any modelled operation and is omitted. -/
abbrev SchemaT : Type := List (String × Ty)

def lookupTy : SchemaT → String → Option Ty
  | [], _ => none
  | (k, t) :: rest, name => if k == name then some t else lookupTy rest name

/-- The declared name attribute of a node. -/
def Ty.getName : Ty → Option String
  | .str _ nm => nm
  | .num nm => nm
  | .bool nm => nm
  | .null nm => nm
  | .undefined nm => nm
  | .unknown nm => nm
  | .strLit _ nm => nm
  | .numLit _ nm => nm
  | .boolLit _ nm => nm
  | .array _ nm => nm
  | .interfaceT _ _ nm => nm
  | .union _ _ nm => nm
  | .intersection _ nm => nm
  | .mapped _ _ _ nm => nm
  | .indexSignature _ _ nm => nm
  | .omitT _ _ nm => nm
  | .keyof _ nm => nm
  | .partialT _ nm => nm
  | .ref _ nm => nm

/-- The spread-with-name-override of resolveType. -/
def Ty.setName : Ty → Option String → Ty
  | .str sn _, nm => .str sn nm
  | .num _, nm => .num nm
  | .bool _, nm => .bool nm
  | .null _, nm => .null nm
  | .undefined _, nm => .undefined nm
  | .unknown _, nm => .unknown nm
  | .strLit v _, nm => .strLit v nm
  | .numLit v _, nm => .numLit v nm
  | .boolLit v _, nm => .boolLit v nm
  | .array e _, nm => .array e nm
  | .interfaceT fs hs _, nm => .interfaceT fs hs nm
  | .union ms ks _, nm => .union ms ks nm
  | .intersection ms _, nm => .intersection ms nm
  | .mapped mf op mt _, nm => .mapped mf op mt nm
  | .indexSignature k v _, nm => .indexSignature k v nm
  | .omitT ob ofs _, nm => .omitT ob ofs nm
  | .keyof ob _, nm => .keyof ob nm
  | .partialT e _, nm => .partialT e nm
  | .ref r _, nm => .ref r nm

/-- The kind discriminator string of a node, used in error messages. -/
def Ty.kindStr : Ty → String
  | .str _ _ => "string"
  | .num _ => "number"
  | .bool _ => "boolean"
  | .null _ => "null"
  | .undefined _ => "undefined"
  | .unknown _ => "unknown"
  | .strLit _ _ => "string-literal"
  | .numLit _ _ => "number-literal"
  | .boolLit _ _ => "boolean-literal"
  | .array _ _ => "array"
  | .interfaceT _ _ _ => "interface"
  | .union _ _ _ => "union"
  | .intersection _ _ => "intersection"
  | .mapped _ _ _ _ => "mapped"
  | .indexSignature _ _ _ => "index-signature"
  | .omitT _ _ _ => "omit"
  | .keyof _ _ => "keyof"
  | .partialT _ _ => "partial"
  | .ref _ _ => "reference-type"

def Ty.isRef : Ty → Bool
  | .ref _ _ => true
  | _ => false

/-- The kind-is-string test of the mapped case (a syntactic test on the
unresolved mapFrom node). -/
def Ty.isStrKind : Ty → Bool
  | .str _ _ => true
  | _ => false

def Ty.isInterfaceKind : Ty → Bool
  | .interfaceT _ _ _ => true
  | _ => false

/-- resolveType of type-definitions.ts, with fuel for the unbounded
reference chase: a reference type is mapped to its definition, following
multiple resolve steps, and the name of the returned copy is overwritten
with the referencing name; other types are returned as is.  A missing
name throws a plain Error. -/
def resolveTypeFuel : Nat → SchemaT → Ty → Except Exc Ty
  | 0, _, _ => .error .fuelOut
  | n+1, schema, t =>
    match t with
    | .ref refName _ =>
      match lookupTy schema refName with
      | some cand =>
        match cand with
        | .ref r2 nm2 => resolveTypeFuel n schema (.ref r2 nm2)
        | other => .ok (other.setName (some refName))
      | none => .error (.schemaError ("Type " ++ quote1 refName ++ " was used, but not defined."))
    | other => .ok other

/-- resolveType with the canonical fuel: a reference chain without a
cycle has length at most the number of schema entries, so this fuel is
exhausted only on cyclic chains, where the source diverges. -/
def resolveType (schema : SchemaT) (t : Ty) : Except Exc Ty :=
  resolveTypeFuel (schema.length + 1) schema t

/-- The member walk of isEnum: every member must syntactically be a
string literal. -/
def isEnumVals : List Ty → Option (List String)
  | [] => some []
  | .strLit v _ :: rest => (isEnumVals rest).map (fun l => v :: l)
  | _ :: _ => none

/-- isEnum of type-definitions.ts: a string literal is a singleton enum,
a union is an enum when every member is a string literal (the members
are not resolved), anything else is not an enum. -/
def isEnum : Ty → Option (List String)
  | .strLit v _ => some [v]
  | .union ms _ _ => isEnumVals ms
  | _ => none

/-! ## typeToString (type-definitions.ts) -/

mutual
/-- typeToString(type, options): the declared name wins; otherwise a
source-like structural rendering.  The short flag renders interfaces on
one line.  The mapped case of the source interpolates the raw node
objects into the template, producing the text object Object in
brackets; that is reproduced verbatim. -/
def typeToString (t : Ty) (short : Bool) : String :=
  match t.getName with
  | some n => n
  | none =>
    match t with
    | .str sn _ => match sn with
        | some s => s
        | none => "string"
    | .num _ => "number"
    | .bool _ => "boolean"
    | .null _ => "null"
    | .unknown _ => "unknown"
    | .undefined _ => "undefined"
    | .boolLit v _ => if v then "true" else "false"
    | .numLit v _ => toString v
    | .ref r _ => r
    | .indexSignature k v _ =>
        "\x7b [key: " ++ typeToString k short ++ "]: " ++ typeToString v short ++ " \x7d"
    | .interfaceT fields heritage _ =>
        "\x7b" ++ (if short then " " else "\n  ")
          ++ joinSep (if short then "; " else "\n  ") (fieldStrings fields short)
          ++ (if short then " " else "\n") ++ "\x7d"
          ++ (match heritage with
              | [] => ""
              | hs => " extends " ++ joinSep ", " (typeStrings hs short))
    | .union ms _ _ =>
        let members := indentedTypeStrings ms short
        if short || members.all (fun m => !(strContains m "\n")) then joinSep " | " members
        else joinSep " | \n" members
    | .intersection ms _ => joinSep " & " (typeStrings ms short)
    | .array e _ => "Array<" ++ typeToString e short ++ ">"
    | .partialT e _ => "Partial<" ++ typeToString e short ++ ">"
    | .strLit v _ => quote1 v
    | .keyof b _ => "keyof " ++ typeToString b short
    | .omitT b ofs _ =>
        "Omit<" ++ typeToString b short ++ ", " ++ joinSep " | " (ofs.map quote1) ++ ">"
    | .mapped _ _ _ _ => "\x7b [Symbol in [object Object]]: [object Object]\x7d"

def typeStrings : List Ty → Bool → List String
  | [], _ => []
  | t :: ts, short => typeToString t short :: typeStrings ts short

def indentedTypeStrings : List Ty → Bool → List String
  | [], _ => []
  | t :: ts, short => indent (typeToString t short) :: indentedTypeStrings ts short

def fieldStrings : List FieldT → Bool → List String
  | [], _ => []
  | (n, _, t) :: fs, short => (n ++ ": " ++ indent (typeToString t short)) :: fieldStrings fs short
end

/-! ## computePropertiesOfType (check-type.ts) -/

/-- Accumulate, preserving first occurrence: the push-if-absent loops of
the interface, union and intersection cases. -/
def appendNew (acc : List String) : List String → List String
  | [] => acc
  | x :: xs => appendNew (if acc.contains x then acc else acc ++ [x]) xs

/-- The member walk of the mapped case when mapFrom resolves to a union:
every resolved member must be a string literal. -/
def mappedFromUnionProps (schema : SchemaT) (errCtx : String) (acc : List String) :
    List Ty → Except Exc (List String)
  | [] => .ok acc
  | m :: ms =>
    match resolveType schema m with
    | .error e => .error e
    | .ok member =>
      match member with
      | .strLit v _ => mappedFromUnionProps schema errCtx (acc ++ [v]) ms
      | other => .error (.schemaError (errCtx ++ ", because from is a union with a member that is " ++ other.kindStr))

/-- Fold a property computation over a member list with appendNew. -/
def propsFold (f : Ty → Except Exc (List String)) (acc : List String) :
    List Ty → Except Exc (List String)
  | [] => .ok acc
  | m :: ms =>
    match f m with
    | .error e => .error e
    | .ok ps => propsFold f (appendNew acc ps) ms

/-- computePropertiesOfType of check-type.ts, with fuel: the set of
possible properties on a given type, as an over-approximation.

The source omit case reads resolveType(schema, type) where type is the
omit node itself; resolveType is the identity on non-references, so the
source recurses on the same node without progress (see the claim about
omit property computation). That behaviour is reproduced verbatim. -/
def computePropertiesOfType : Nat → SchemaT → Ty → Except Exc (List String)
  | 0, _, _ => .error .fuelOut
  | n+1, schema, t =>
    match t with
    | .str _ _ => .ok []
    | .num _ => .ok []
    | .bool _ => .ok []
    | .undefined _ => .ok []
    | .null _ => .ok []
    | .unknown _ => .ok []
    | .strLit _ _ => .ok []
    | .boolLit _ _ => .ok []
    | .numLit _ _ => .ok []
    | .keyof _ _ => .ok []
    | .indexSignature k v nm =>
        .error (.schemaError ("Cannot compute fields of "
          ++ typeToString (.indexSignature k v nm) false ++ ", because it is an index signature."))
    | .mapped mapFrom opt mapTo nm =>
        match resolveType schema mapFrom with
        | .error e => .error e
        | .ok fromT =>
          match fromT with
          | .strLit v _ => .ok [v]
          | .union ms _ _ =>
              mappedFromUnionProps schema
                ("Cannot compute fields of " ++ typeToString (.mapped mapFrom opt mapTo nm) false) [] ms
          | other =>
              .error (.schemaError ("Cannot compute fields of "
                ++ typeToString (.mapped mapFrom opt mapTo nm) false
                ++ ", because from is " ++ other.kindStr))
    | .array _ _ => .ok ["length"]
    | .ref r nm =>
        match resolveType schema (.ref r nm) with
        | .error e => .error e
        | .ok resolved => computePropertiesOfType n schema resolved
    | .omitT b ofs nm =>
        match resolveType schema (.omitT b ofs nm) with
        | .error e => .error e
        | .ok resolved =>
          match computePropertiesOfType n schema resolved with
          | .error e => .error e
          | .ok ps => .ok (ps.filter (fun f => !(ofs.contains f)))
    | .interfaceT fields heritage _ =>
        propsFold (fun h => computePropertiesOfType n schema h)
          (fields.map (fun f => f.1)) heritage
    | .union ms _ _ => propsFold (fun m => computePropertiesOfType n schema m) [] ms
    | .intersection ms _ => propsFold (fun m => computePropertiesOfType n schema m) [] ms
    | .partialT e _ => computePropertiesOfType n schema e

/-! ## String-format validators (validators.ts) -/

def splitChAux (sep : Char) (cur : List Char) : List Char → List (List Char)
  | [] => [cur.reverse]
  | c :: cs => if c = sep then cur.reverse :: splitChAux sep [] cs else splitChAux sep (c :: cur) cs

/-- String.prototype.split on a single-character separator. -/
def splitCh (sep : Char) (s : String) : List String :=
  (splitChAux sep [] s.toList).map (fun l => String.mk l)

def allDigitsLen (s : String) (k : Nat) : Bool :=
  s.toList.length == k && s.toList.all isDigitC

/-- validateSocialSecurityNumber: trimmed value must match three, two and
four digits separated by dashes. -/
def validateSocialSecurityNumber (value0 : String) : String :=
  let value := jsTrim value0
  match splitCh '-' value with
  | [a, b, c] =>
    if allDigitsLen a 3 && allDigitsLen b 2 && allDigitsLen c 4 then ""
    else "SSN must use ###-##-#### format."
  | _ => "SSN must use ###-##-#### format."

/-- validatePhoneNumber: trimmed value must be a plus sign, the digit 1,
and exactly ten digits. -/
def validatePhoneNumber (value0 : String) : String :=
  let value := jsTrim value0
  match value.toList with
  | '+' :: '1' :: rest =>
    if rest.length == 10 && rest.all isDigitC then ""
    else "Phone numbers must use +1########## format."
  | _ => "Phone numbers must use +1########## format."

/-- validatePostalCode: trimmed value must be five digits, optionally
followed by a dash and four digits. -/
def validatePostalCode (value0 : String) : String :=
  let value := jsTrim value0
  match splitCh '-' value with
  | [a] => if allDigitsLen a 5 then "" else "Postal code must use ##### or #####-#### format."
  | [a, b] =>
    if allDigitsLen a 5 && allDigitsLen b 4 then ""
    else "Postal code must use ##### or #####-#### format."
  | _ => "Postal code must use ##### or #####-#### format."

/-- validateTrimmedString: trimmed value must be nonempty and at most
100 characters. -/
def validateTrimmedString (value0 : String) : String :=
  let value := jsTrim value0
  if value == "" then "Cannot be empty."
  else if value.length > 100 then "Enter at most 100 characters."
  else ""

/-- A character the regex dot matches: anything but a line terminator. -/
def notLineTerm (c : Char) : Bool :=
  !(c = '\n') && !(c = '\r') && !(c = Char.ofNat 8232) && !(c = Char.ofNat 8233)

def stripSign : List Char → List Char
  | '-' :: rest => rest
  | cs => cs

/-- The integer alternative of validateNumericString: a nonzero digit
followed by digits. -/
def matchIntBody : List Char → Bool
  | [] => false
  | c :: rest => ('1' ≤ c && c ≤ '9') && rest.all isDigitC

/-- After one or more leading digits of the decimal alternative: either
the single dot-matched character followed by one or more digits, or one
more leading digit.  The source regex spells the decimal point as an
unescaped dot, which in a regular expression matches any character that
is not a line terminator; the model reproduces that. -/
def decAfterDigits : List Char → Bool
  | [] => false
  | x :: rest =>
    (notLineTerm x && !rest.isEmpty && rest.all isDigitC) || (isDigitC x && decAfterDigits rest)

/-- The decimal alternative of validateNumericString, anchored: one or
more digits, one dot-matched character, one or more digits. -/
def matchDecBody : List Char → Bool
  | [] => false
  | c :: rest => isDigitC c && decAfterDigits rest

/-- validateNumericString of validators.ts: the trimmed value must be 0,
an integer without leading zeros, or match the decimal regular
expression (whose dot is unescaped in the source). -/
def validateNumericString (value0 : String) : String :=
  let value := jsTrim value0
  if value == "0" || matchIntBody (stripSign value.toList) || matchDecBody (stripSign value.toList) then ""
  else "Must be a valid number, e.g. " ++ quote1 "1.24" ++ "."

/-- validateDollarAmount: a NumericString, at most two characters after
the first dot, and no dash. -/
def validateDollarAmount (value0 : String) : String :=
  let value := jsTrim value0
  let numberResult := validateNumericString value
  if !(numberResult == "") then numberResult
  else if strContains value "." && (((splitCh '.' value).get? 1).getD "").length > 2 then
    "Use at most 2 decimal places."
  else if strContains value "-" then "Enter a positive number."
  else ""

/-- Modelled from the spec: the email-validator package the source
imports is an external dependency whose code is not in src; the spec
asks for standard email validation.  Modelled: exactly one at-sign
separating a nonempty local part from a domain with at least two
nonempty dot-separated labels. -/
def isEmailValidModel (s : String) : Bool :=
  match splitCh '@' s with
  | [localPart, domain] =>
    !localPart.isEmpty &&
      (match splitCh '.' domain with
       | [] => false
       | [_] => false
       | labels => labels.all (fun l => !l.isEmpty))
  | _ => false

/-- validateEmail: trimmed value must be nonempty and a valid email. -/
def validateEmail (value0 : String) : String :=
  let value := jsTrim value0
  if value == "" then "Email is required."
  else if !(isEmailValidModel value) then "Email is malformed."
  else ""

def isLeapYear (y : Nat) : Bool :=
  (y % 4 == 0 && !(y % 100 == 0)) || y % 400 == 0

def daysInMonth (y m : Nat) : Nat :=
  if m == 1 || m == 3 || m == 5 || m == 7 || m == 8 || m == 10 || m == 12 then 31
  else if m == 4 || m == 6 || m == 9 || m == 11 then 30
  else if m == 2 then (if isLeapYear y then 29 else 28)
  else 0

/-- Modelled from the spec: the source parses with the external date-fns
library; the spec says YYYY-MM-DD, parseable as a calendar date.
Modelled: four, two and two digits separated by dashes, with a month of
1 to 12 and a day within that month. -/
def isoDateValid (s : String) : Bool :=
  match splitCh '-' s with
  | [y, m, d] =>
    allDigitsLen y 4 && allDigitsLen m 2 && allDigitsLen d 2 &&
      (let mn := digitsToNat 0 m.toList
       let dn := digitsToNat 0 d.toList
       1 ≤ mn && mn ≤ 12 && 1 ≤ dn && dn ≤ daysInMonth (digitsToNat 0 y.toList) mn)
  | _ => false

/-- validateIsoDate (the value is not trimmed by the source). -/
def validateIsoDate (value : String) : String :=
  if isoDateValid value then "" else "Expected YYYY-MM-DD."

def isTwoDigitBelow (s : String) (bound : Nat) : Bool :=
  allDigitsLen s 2 && digitsToNat 0 s.toList < bound

def isoSecondsValid (s : String) : Bool :=
  match splitCh '.' s with
  | [sec] => isTwoDigitBelow sec 60
  | [sec, frac] => isTwoDigitBelow sec 60 && !frac.isEmpty && frac.toList.all isDigitC
  | _ => false

def isoZoneSplit (s : String) : String × String :=
  let cs := s.toList
  if cs.getLast? = some 'Z' then (String.mk (cs.dropLast), "Z")
  else if cs.length ≥ 6 && (cs.get? (cs.length - 6) = some '+' || cs.get? (cs.length - 6) = some '-') then
    (String.mk (cs.take (cs.length - 6)), String.mk (cs.drop (cs.length - 6)))
  else (s, "")

def isoOffsetValid (z : String) : Bool :=
  z == "Z" || z == "" ||
    (match z.toList with
     | sign :: rest =>
       (sign = '+' || sign = '-') &&
         (match splitCh ':' (String.mk rest) with
          | [h, m] => isTwoDigitBelow h 24 && isTwoDigitBelow m 60
          | _ => false)
     | [] => false)

def isoTimeValid (s : String) : Bool :=
  let core := (isoZoneSplit s).1
  let zone := (isoZoneSplit s).2
  isoOffsetValid zone &&
    (match splitCh ':' core with
     | [h, m] => isTwoDigitBelow h 24 && isTwoDigitBelow m 60
     | [h, m, sec] => isTwoDigitBelow h 24 && isTwoDigitBelow m 60 && isoSecondsValid sec
     | _ => false)

/-- Modelled from the spec: the source parses with the external date-fns
parseISO; the spec says an ISO-8601 date and time with at least hours
and minutes, and the source explicitly rejects a bare YYYY-MM-DD with a
regular expression to catch accidental IsoDate usage. -/
def validateIsoDatetime (value : String) : String :=
  let bareDate :=
    match splitCh '-' value with
    | [y, m, d] => allDigitsLen y 4 && allDigitsLen m 2 && allDigitsLen d 2
    | _ => false
  let valid :=
    match splitCh 'T' value with
    | [datePart, timePart] => isoDateValid datePart && isoTimeValid timePart
    | _ => false
  if !valid || bareDate then "Expected a date and time of format 2021-12-05T18:44:38Z."
  else ""

def isHexLen (s : String) (k : Nat) : Bool :=
  s.toList.length == k && s.toList.all isHexC

/-- validateUuid: five dash-separated hexadecimal groups of lengths 8,
4, 4, 4 and 12. -/
def validateUuid (value : String) : String :=
  match splitCh '-' value with
  | [a, b, c, d, e] =>
    if isHexLen a 8 && isHexLen b 4 && isHexLen c 4 && isHexLen d 4 && isHexLen e 12 then ""
    else "Expected a UUID like " ++ quote1 "123e4567-e89b-12d3-a456-426614174000" ++ "."
  | _ => "Expected a UUID like " ++ quote1 "123e4567-e89b-12d3-a456-426614174000" ++ "."

/-- The code column of US_STATES (types/common.ts). -/
def US_STATE_CODES : List String := [
  "AL", "AK", "AZ", "AR", "CA", "CO", "CT", "DE", "DC", "FL", "GA", "HI",
  "ID", "IL", "IN", "IA", "KS", "KY", "LA", "ME", "MD", "MA", "MI", "MN",
  "MS", "MO", "MT", "NE", "NV", "NH", "NJ", "NM", "NY", "NC", "ND", "OH",
  "OK", "OR", "PA", "RI", "SC", "SD", "TN", "TX", "UT", "VT", "VA", "WA",
  "WV", "WI", "WY", "AS", "GU", "MP", "PR", "VI"]

/-- The code column of COUNTRIES (types/common.ts). -/
def COUNTRY_CODES : List String := [
  "ABW", "AFG", "AGO", "AIA", "ALA", "ALB", "AND", "ARE", "ARG", "ARM", "ASM", "ATA",
  "ATF", "ATG", "AUS", "AUT", "AZE", "BDI", "BEL", "BEN", "BES", "BFA", "BGD", "BGR",
  "BHR", "BHS", "BIH", "BLM", "BLR", "BLZ", "BMU", "BOL", "BRA", "BRB", "BRN", "BTN",
  "BVT", "BWA", "CAF", "CAN", "CCK", "CHE", "CHL", "CHN", "CIV", "CMR", "COD", "COG",
  "COK", "COL", "COM", "CPV", "CRI", "CUB", "CUW", "CXR", "CYM", "CYP", "CZE", "DEU",
  "DJI", "DMA", "DNK", "DOM", "DZA", "ECU", "EGY", "ERI", "ESH", "ESP", "EST", "ETH",
  "FIN", "FJI", "FLK", "FRA", "FRO", "FSM", "GAB", "GBR", "GEO", "GGY", "GHA", "GIB",
  "GIN", "GLP", "GMB", "GNB", "GNQ", "GRC", "GRD", "GRL", "GTM", "GUF", "GUM", "GUY",
  "HKG", "HMD", "HND", "HRV", "HTI", "HUN", "IDN", "IMN", "IND", "IOT", "IRL", "IRN",
  "IRQ", "ISL", "ISR", "ITA", "JAM", "JEY", "JOR", "JPN", "KAZ", "KEN", "KGZ", "KHM",
  "KIR", "KNA", "KOR", "KWT", "LAO", "LBN", "LBR", "LBY", "LCA", "LIE", "LKA", "LSO",
  "LTU", "LUX", "LVA", "MAC", "MAF", "MAR", "MCO", "MDA", "MDG", "MDV", "MEX", "MHL",
  "MKD", "MLI", "MLT", "MMR", "MNE", "MNG", "MNP", "MOZ", "MRT", "MSR", "MTQ", "MUS",
  "MWI", "MYS", "MYT", "NAM", "NCL", "NER", "NFK", "NGA", "NIC", "NIU", "NLD", "NOR",
  "NPL", "NRU", "NZL", "OMN", "PAK", "PAN", "PCN", "PER", "PHL", "PLW", "PNG", "POL",
  "PRI", "PRK", "PRT", "PRY", "PSE", "PYF", "QAT", "REU", "ROU", "RUS", "RWA", "SAU",
  "SDN", "SEN", "SGP", "SGS", "SHN", "SJM", "SLB", "SLE", "SLV", "SMR", "SOM", "SPM",
  "SRB", "SSD", "STP", "SUR", "SVK", "SVN", "SWE", "SWZ", "SXM", "SYC", "SYR", "TCA",
  "TCD", "TGO", "THA", "TJK", "TKL", "TKM", "TLS", "TON", "TTO", "TUN", "TUR", "TUV",
  "TWN", "TZA", "UGA", "UKR", "UMI", "URY", "USA", "UZB", "VAT", "VCT", "VEN", "VGB",
  "VIR", "VNM", "VUT", "WLF", "WSM", "YEM", "ZAF", "ZMB", "ZWE"]

/-- Modelled from the spec: validateUsState is imported by check-type.ts
but its definition is not in src; the spec specifies membership in the
fixed USPS two-letter table (the table itself is in src).  The message
text is modelled. -/
def validateUsState (value : String) : String :=
  if US_STATE_CODES.contains value then "" else "Expected a US state code."

/-- Modelled from the spec: validateCountryCode is imported by
check-type.ts but its definition is not in src; the spec specifies
membership in the fixed ISO-3166-1 alpha-3 table (the table itself is in
src).  The message text is modelled. -/
def validateCountryCode (value : String) : String :=
  if COUNTRY_CODES.contains value then "" else "Expected a country code."

/-- The mapEnum dispatch table of checkSpecialStringType: the validator
for a built-in special name, none for an unknown name. -/
def specialValidator (n : String) : Option (String → String) :=
  if n == "IsoDate" then some validateIsoDate
  else if n == "IsoDatetime" then some validateIsoDatetime
  else if n == "TrimmedString" then some validateTrimmedString
  else if n == "Email" then some validateEmail
  else if n == "PhoneNumber" then some validatePhoneNumber
  else if n == "SocialSecurityNumber" then some validateSocialSecurityNumber
  else if n == "PostalCode" then some validatePostalCode
  else if n == "Uuid" then some validateUuid
  else if n == "NumericString" then some validateNumericString
  else if n == "DollarAmount" then some validateDollarAmount
  else if n == "UsState" then some validateUsState
  else if n == "CountryCode" then some validateCountryCode
  else none

/-- checkSpecialStringType of check-type.ts, restricted to the
specialName attribute of its BuiltInType argument: run the format
validator if one exists, then reject extra whitespace for the four
trimmed formats.  Both failures throw TypecheckingError. -/
def checkSpecialStringType (value : String) : Option String → Except Exc Unit
  | none => .ok ()
  | some sn =>
    let step1 : Except Exc Unit :=
      match specialValidator sn with
      | none => .ok ()
      | some f =>
        let result := f value
        if result == "" then .ok ()
        else .error (.typechecking (result ++ " Got " ++ quote1 value ++ " for " ++ sn))
    match step1 with
    | .error e => .error e
    | .ok _ =>
      if (["TrimmedString", "Email", "DollarAmount", "NumericString"].contains sn)
          && !(value == jsTrim value) then
        .error (.typechecking (sn ++ " must not have extra whitespace, but found " ++ quote1 value
          ++ " == value != value.trim() == " ++ quote1 (jsTrim value)))
      else .ok ()

/-! ## The conformance checker (check-type.ts) -/

/-- The options record of checkValueAgainstTypeHelper.  An absent
options argument of the source behaves as partial false and no ignored
fields, the default below. -/
structure Options where
  partialMode : Bool
  ignoredFields : List String

instance : Inhabited Options := ⟨⟨false, []⟩⟩

/-- The checkJsType closure: compare typeof value with the expected
Javascript type name. -/
def checkJsType (value : Value) (jsType : String) : Except Exc Unit :=
  if jsTypeof value == jsType then .ok ()
  else .error (.typechecking ("Expected Javascript type " ++ jsType ++ ", but got type " ++ jsTypeof value))

/-- valueToShortString: the value path alone when the rendered value is
40 characters or longer, else the path with the rendering appended in
backticks.  Objects render with JSON.stringify, strings single-quoted,
other primitives with String. -/
def valueToShortString (value : Value) (valueString : String) : String :=
  let result :=
    if jsTypeof value == "object" then jsonCompact value
    else match value with
      | .str s => quote1 s
      | .num n => toString n
      | .bool b => if b then "true" else "false"
      | _ => "undefined"
  if result.length < 40 then valueString ++ " (aka. `" ++ result ++ "`)"
  else valueString

/-- typeToShortString: the declared name if any; else the short
rendering, replaced by the alternative only when the rendering is both
long and not much shorter than the alternative. -/
def typeToShortString (t : Ty) (alternative : Option String) : String :=
  match t.getName with
  | some n => n
  | none =>
    let str := typeToString t true
    match alternative with
    | none => str
    | some alt => if str.length < alt.length + 10 || str.length < 40 then str else alt

/-- Ordinal rendering used by the union fallback messages. -/
def ith (i : Nat) : String :=
  toString i ++ (if i == 1 then "st" else if i == 2 then "nd" else if i == 3 then "rd" else "th")

/-- The per-frame catch-and-rethrow of checkValueAgainstTypeHelper: a
TypecheckingError from the frame body is rethrown with one While
checking line appended; everything else passes through. -/
def frameWrap (value : Value) (valueString : String) (t : Ty) (typeString : String)
    (r : Except Exc Unit) : Except Exc Unit :=
  match r with
  | .error (.typechecking m) =>
    .error (.typechecking (m ++ "\nWhile checking " ++ valueToShortString value valueString
      ++ " against type " ++ typeToShortString t (some typeString)))
  | other => other

/-- Run a check for each list element in order, stopping at the first
exception: the for loops of the source. -/
def seqE {α : Type} (f : α → Except Exc Unit) : List α → Except Exc Unit
  | [] => .ok ()
  | x :: xs =>
    match f x with
    | .ok _ => seqE f xs
    | .error e => .error e

/-- Like seqE with the element index, for the array loop. -/
def seqIdx {α : Type} (f : Nat → α → Except Exc Unit) : Nat → List α → Except Exc Unit
  | _, [] => .ok ()
  | i, x :: xs =>
    match f i x with
    | .ok _ => seqIdx f (i+1) xs
    | .error e => .error e

/-- The generic union fallback loop: try each member; return on the
first success; collect TypecheckingError messages; let other exceptions
escape; after the last member throw the combined message. -/
def unionLoop (f : Nat → Ty → Except Exc Unit) : Nat → List String → List Ty → Except Exc Unit
  | _, errors, [] => .error (.typechecking ("No union member matches:\n" ++ joinNl errors))
  | i, errors, m :: ms =>
    match f i m with
    | .ok _ => .ok ()
    | .error (.typechecking msg) =>
      unionLoop f (i+1)
        (errors ++ ["- tried " ++ ith (i+1) ++ " union member, but got:\n  " ++ indent msg]) ms
    | .error e => .error e

/-- The member predicate of the discriminated-union dispatch: the
resolved member is an interface with some field named kind whose type is
the string literal of the sought kind (the source does not require the
field to be non-optional here). -/
def memberMatchesKind : Ty → String → Bool
  | .interfaceT fields _ _, kindVal =>
    fields.any (fun f => f.1 == "kind" &&
      (match f.2.2 with
       | .strLit v _ => v == kindVal
       | _ => false))
  | _, _ => false

/-- The unionMembers.find of the discriminated dispatch, resolving each
member; a resolution failure escapes. -/
def findKindMember (schema : SchemaT) (kindVal : String) : List Ty → Except Exc (Option Ty)
  | [] => .ok none
  | m :: ms =>
    match resolveType schema m with
    | .error e => .error e
    | .ok resolved =>
      if memberMatchesKind resolved kindVal then .ok (some m)
      else findKindMember schema kindVal ms

/-- The value as a boolean after a typeof boolean guard. -/
def Value.asBool : Value → Bool
  | .bool b => b
  | _ => false

/-- The value as a number after a typeof number guard. -/
def Value.asNum : Value → Int
  | .num n => n
  | _ => 0

/-- The switch body of checkValueAgainstTypeHelper, on the resolved
type.  The recursive calls of the source are abstracted as sub (value,
type, valuePath, typePath, depth, options) and the
computePropertiesOfType calls as props, both instantiated with the
remaining fuel by checkValueAgainstTypeHelper below.  The source switch
has no case for reference-type (unreachable after resolution), which in
Javascript means the switch falls through and accepts. -/
def checkBody
    (sub : Value → Ty → String → String → Nat → Options → Except Exc Unit)
    (props : Ty → Except Exc (List String))
    (schema : SchemaT) (value : Value) (type1 : Ty)
    (valueString typeString : String) (depth : Nat) (options : Options) : Except Exc Unit :=
  match type1 with
  | .str sn _ =>
    (match checkJsType value "string" with
     | .error e => .error e
     | .ok _ => checkSpecialStringType value.asString sn)
  | .num _ => checkJsType value "number"
  | .bool _ => checkJsType value "boolean"
  | .unknown _ => .ok ()
  | .boolLit bv _ =>
    (match checkJsType value "boolean" with
     | .error e => .error e
     | .ok _ =>
       if value.asBool == bv then .ok ()
       else .error (.typechecking ("Expected " ++ (if bv then "true" else "false") ++ " literal")))
  | .keyof base _ =>
    (match checkJsType value "string" with
     | .error e => .error e
     | .ok _ =>
       match props base with
       | .error e => .error e
       | .ok keys =>
         if keys.contains value.asString then .ok ()
         else .error (.typechecking ("Expected one of [" ++ joinSep "," (keys.map quote1)
           ++ "], but got " ++ quote1 value.asString)))
  | .indexSignature _ valueType _ =>
    (match checkJsType value "object" with
     | .error e => .error e
     | .ok _ =>
       match objectKeysE value with
       | .error e => .error e
       | .ok keys =>
         seqE (fun field =>
           sub (getProp value field) valueType (valueString ++ "[" ++ quote1 field ++ "]")
             (typeToShortString valueType none) (depth+1) default) keys)
  | .omitT base ofs nm =>
    sub value base valueString (typeToShortString (.omitT base ofs nm) none) (depth+1)
      ⟨false, options.ignoredFields ++ ofs⟩
  | .mapped mapFrom opt mapTo nm =>
    (match checkJsType value "object" with
     | .error e => .error e
     | .ok _ =>
       if mapFrom.isStrKind then
         (match objectKeysE value with
          | .error e => .error e
          | .ok keys =>
            seqE (fun field =>
              if options.ignoredFields.contains field then .ok ()
              else sub (getProp value field) mapTo (valueString ++ "[" ++ quote1 field ++ "]")
                (typeToShortString mapTo none) (depth+1) default) keys)
       else
         match props (.mapped mapFrom opt mapTo nm) with
         | .error e =>
           .error (.schemaError ("Cannot type-check mapped type with mapFrom type "
             ++ typeToString mapFrom false ++ ", because properties are not fixed: " ++ e.message))
         | .ok properties =>
           seqE (fun property =>
             if options.ignoredFields.contains property then .ok ()
             else if !opt && !options.partialMode && !(hasProperty value property) then
               .error (.typechecking ("Field " ++ quote1 property
                 ++ " is not optional but missing from value"))
             else if hasProperty value property then
               sub (getProp value property) mapTo (valueString ++ "[" ++ quote1 property ++ "]")
                 (typeToShortString mapTo none) (depth+1) default
             else .ok ()) properties)
  | .null _ =>
    (match value with
     | .null => .ok ()
     | _ => .error (.typechecking "Expected null value"))
  | .undefined _ =>
    (match value with
     | .undefined => .ok ()
     | _ => .error (.typechecking "Expected undefined value"))
  | .strLit sv _ =>
    (match checkJsType value "string" with
     | .error e => .error e
     | .ok _ =>
       if value.asString == sv then .ok ()
       else .error (.typechecking ("Expected string literal " ++ quote1 sv
         ++ ", but got " ++ quote1 value.asString)))
  | .numLit nv _ =>
    (match checkJsType value "number" with
     | .error e => .error e
     | .ok _ =>
       if value.asNum == nv then .ok ()
       else .error (.typechecking ("Expected number literal " ++ quote1 (toString nv)
         ++ ", but got " ++ quote1 (toString value.asNum))))
  | .intersection ms _ =>
    seqE (fun member =>
      sub value member valueString (typeToString member true) (depth+1)
        ⟨false, options.ignoredFields⟩) ms
  | .union ms kinds unm =>
    (match isEnum (.union ms kinds unm) with
     | some enums =>
       (match checkJsType value "string" with
        | .error e => .error e
        | .ok _ =>
          if enums.contains value.asString then .ok ()
          else .error (.typechecking ("Expected one of [" ++ joinSep ", " (enums.map quote1)
            ++ "], but got " ++ quote1 value.asString)))
     | none =>
       let genericLoop :=
         unionLoop (fun i m =>
           sub value m valueString
             (typeToShortString m (some (typeString ++ "[" ++ ith (i+1) ++ " union member]")))
             (depth+1) ⟨false, options.ignoredFields⟩) 0 [] ms
       match kinds with
       | none => genericLoop
       | some ks =>
         (match checkJsType value "object" with
          | .error e => .error e
          | .ok _ =>
            if !(hasProperty value "kind") then
              .error (.typechecking ("Field " ++ quote1 "kind" ++ " is missing from union"))
            else if !(jsTypeof (getProp value "kind") == "string") then
              .error (.typechecking ("Expected field " ++ quote1 "kind"
                ++ " to have Javascript type string, but found type "
                ++ jsTypeof (getProp value "kind")))
            else if !(ks.contains (getProp value "kind").asString) then
              .error (.typechecking ("Expected field " ++ quote1 "kind" ++ " to be one of ["
                ++ joinSep ", " (ks.map quote1) ++ "], but got "
                ++ quote1 (getProp value "kind").asString))
            else
              match findKindMember schema (getProp value "kind").asString ms with
              | .error e => .error e
              | .ok none => .error (.schemaError "Expected non-null value, but got undefined.")
              | .ok (some unionKindType) =>
                match sub value unionKindType valueString
                    (typeToShortString unionKindType
                      (some (typeString ++ "[kind == " ++ quote1 (getProp value "kind").asString ++ "]")))
                    (depth+1) ⟨false, options.ignoredFields⟩ with
                | .error e => .error e
                | .ok _ => genericLoop))
  | .array elementType _ =>
    (match checkJsType value "object" with
     | .error e => .error e
     | .ok _ =>
       match value with
       | .arr es =>
         seqIdx (fun i elem =>
           sub elem elementType (valueString ++ "[" ++ toString i ++ "]")
             (typeToShortString elementType (some (typeString ++ "[array element type]")))
             (depth+1) default) 0 es
       | _ => .error (.typechecking "Expected an array, but value is not an array"))
  | .partialT elementType nm =>
    (match resolveType schema elementType with
     | .error e => .error e
     | .ok resolved =>
       sub value resolved valueString
         (typeToShortString (.partialT elementType nm) (some ("Partial<" ++ typeString ++ ">")))
         (depth+1) ⟨true, options.ignoredFields⟩)
  | .interfaceT fields heritage _ =>
    (match checkJsType value "object" with
     | .error e => .error e
     | .ok _ =>
       match seqE (fun f =>
           if options.ignoredFields.contains f.1 then .ok ()
           else if !f.2.1 && !options.partialMode && !(hasProperty value f.1) then
             .error (.typechecking ("Field " ++ quote1 f.1 ++ " is not optional but missing from value"))
           else if hasProperty value f.1 then
             sub (getProp value f.1) f.2.2 (valueString ++ "[" ++ quote1 f.1 ++ "]")
               (typeToShortString f.2.2 (some (typeString ++ "[" ++ quote1 f.1 ++ "]")))
               (depth+1) default
           else .ok ()) fields with
       | .error e => .error e
       | .ok _ =>
         seqE (fun heritageRef =>
           sub value heritageRef valueString (typeToString heritageRef true) (depth+1)
             ⟨false, options.ignoredFields⟩) heritage)
  | .ref _ _ => .ok ()

/-- checkValueAgainstTypeHelper of check-type.ts, with fuel (one unit
per frame): resolve the type, reject partial mode on a non-interface,
run the switch body, and decorate an escaping TypecheckingError with one
While checking line. -/
def checkValueAgainstTypeHelper :
    Nat → Value → Ty → SchemaT → String → String → Nat → Options → Except Exc Unit
  | 0, _, _, _, _, _, _, _ => .error .fuelOut
  | n+1, value, type0, schema, valueString, typeString, depth, options =>
    match resolveType schema type0 with
    | .error e => .error e
    | .ok type1 =>
      if options.partialMode && !type1.isInterfaceKind then
        .error (.schemaError ("Can only check Partial<T> for interface T, but T was "
          ++ typeToString type1 false))
      else
        frameWrap value valueString type1 typeString
          (checkBody (fun v t vs ts d o => checkValueAgainstTypeHelper n v t schema vs ts d o)
            (fun t => computePropertiesOfType n schema t)
            schema value type1 valueString typeString depth options)

def tyNameField : Option String → List (String × Value)
  | some n => [("name", .str n)]
  | none => []

mutual
/-- JSON.stringify view of a TypeNode, used only for the _TYPE_ trailer
of the composed diagnostic: kind first, then the payload attributes,
then the name when present (matching the construction order of the
extractor). -/
def tyToValue : Ty → Value
  | .str sn nm =>
    .obj ([("kind", .str "string")]
      ++ (match sn with | some s => [("specialName", Value.str s)] | none => [])
      ++ tyNameField nm)
  | .num nm => .obj ([("kind", .str "number")] ++ tyNameField nm)
  | .bool nm => .obj ([("kind", .str "boolean")] ++ tyNameField nm)
  | .null nm => .obj ([("kind", .str "null")] ++ tyNameField nm)
  | .undefined nm => .obj ([("kind", .str "undefined")] ++ tyNameField nm)
  | .unknown nm => .obj ([("kind", .str "unknown")] ++ tyNameField nm)
  | .strLit v nm => .obj ([("kind", .str "string-literal"), ("value", .str v)] ++ tyNameField nm)
  | .numLit v nm => .obj ([("kind", .str "number-literal"), ("value", .num v)] ++ tyNameField nm)
  | .boolLit v nm => .obj ([("kind", .str "boolean-literal"), ("value", .bool v)] ++ tyNameField nm)
  | .array e nm => .obj ([("kind", .str "array"), ("elementType", tyToValue e)] ++ tyNameField nm)
  | .interfaceT fields heritage nm =>
    .obj ([("kind", .str "interface"), ("fields", .arr (tyFieldValues fields)),
      ("heritage", .arr (tyValues heritage))] ++ tyNameField nm)
  | .union ms ks nm =>
    .obj ([("kind", .str "union"), ("unionMembers", .arr (tyValues ms))]
      ++ (match ks with
          | some l => [("kinds", Value.arr (l.map (fun s => Value.str s)))]
          | none => [])
      ++ tyNameField nm)
  | .intersection ms nm =>
    .obj ([("kind", .str "intersection"), ("intersectionMembers", .arr (tyValues ms))] ++ tyNameField nm)
  | .mapped mf op mt nm =>
    .obj ([("kind", .str "mapped"), ("mapFrom", tyToValue mf), ("optional", .bool op),
      ("mapTo", tyToValue mt)] ++ tyNameField nm)
  | .indexSignature k v nm =>
    .obj ([("kind", .str "index-signature"), ("keyType", tyToValue k),
      ("valueType", tyToValue v)] ++ tyNameField nm)
  | .omitT b ofs nm =>
    .obj ([("kind", .str "omit"), ("base", tyToValue b),
      ("omittedFields", .arr (ofs.map (fun s => Value.str s)))] ++ tyNameField nm)
  | .keyof b nm => .obj ([("kind", .str "keyof"), ("base", tyToValue b)] ++ tyNameField nm)
  | .partialT e nm => .obj ([("kind", .str "partial"), ("elementType", tyToValue e)] ++ tyNameField nm)
  | .ref r nm => .obj ([("kind", .str "reference-type"), ("referencedTypeName", .str r)] ++ tyNameField nm)

def tyValues : List Ty → List Value
  | [] => []
  | t :: ts => tyToValue t :: tyValues ts

def tyFieldValues : List FieldT → List Value
  | [] => []
  | (n, o, t) :: fs =>
    .obj [("name", .str n), ("optional", .bool o), ("type", tyToValue t)] :: tyFieldValues fs
end

def tyToJson (t : Ty) : String := objectToJson (tyToValue t)

/-- The diagnostic composed by the outermost catch of
checkValueAgainstType from the caught TypecheckingError message: header
line, blank line, then either the message without its last While
checking line (when the value rendering was inlined in the header) or
the full message with a value trailer; a type trailer is appended when
the message mentions the literal _TYPE_ placeholder. -/
def composeDiagnostic (value : Value) (type0 : Ty) (msg : String) : String :=
  let shortValueString := valueToShortString value "value"
  let body :=
    if !(shortValueString == "value") then joinNl ((splitNl msg).dropLast)
    else msg ++ "\nvalue = " ++ objectToJson value
  let typeTrailer :=
    if strContains msg "_TYPE_" then "\n_TYPE_ = " ++ tyToJson type0 else ""
  shortValueString ++ " does not conform to " ++ typeToShortString type0 (some "_TYPE_")
    ++ "!\n\n" ++ body ++ "\n" ++ typeTrailer

/-- checkValueAgainstType of check-type.ts, with fuel: returns the empty
string if value conforms to the type, a readable diagnostic composed
from the caught TypecheckingError otherwise; any other exception
escapes. -/
def checkValueAgainstType (fuel : Nat) (value : Value) (type0 : Ty) (schema : SchemaT) :
    Except Exc String :=
  match checkValueAgainstTypeHelper fuel value type0 schema "value" "_TYPE_" 0 default with
  | .ok _ => .ok ""
  | .error (.typechecking msg) => .ok (composeDiagnostic value type0 msg)
  | .error e => .error e

/-- True exactly when the checker returned a string (did not throw). -/
def returnsString : Except Exc String → Bool
  | .ok _ => true
  | .error _ => false

/-- True exactly when the checker returned the empty string (the value
conforms). -/
def isOkEmpty : Except Exc String → Bool
  | .ok s => s == ""
  | .error _ => false

/-! ## Outcome classification

The diagnostic strings woven through the checker depend on the value
path and type path arguments, but whether a frame succeeds, fails with a
TypecheckingError, or lets some other exception escape does not.  The
classification below forgets TypecheckingError messages (only they
embed the paths) and is proved invariant under the path and depth
arguments. -/

/-- The outcome of one checker computation: success, a conformance
failure (TypecheckingError, message forgotten), or an escaping
exception (kept whole: its message never mentions the paths). -/
inductive Outcome where
  | ok
  | tcFail
  | genErr (e : Exc)
  deriving DecidableEq

def classify : Except Exc Unit → Outcome
  | .ok _ => .ok
  | .error (.typechecking _) => .tcFail
  | .error (.schemaError m) => .genErr (.schemaError m)
  | .error (.jsError m) => .genErr (.jsError m)
  | .error .fuelOut => .genErr .fuelOut

def Outcome.isGen : Outcome → Bool
  | .genErr _ => true
  | _ => false

/-- The member side of the kinds-cache invariant: the member resolves to
an interface with exactly one field named kind, non-optional, of
string-literal type with the given value (the shape unionKinds of
generate-schema-main.ts caches, plus the field-name uniqueness
Typescript guarantees). -/
def memberHasKindB (schema : SchemaT) (m : Ty) (k : String) : Bool :=
  match resolveType schema m with
  | .ok (.interfaceT fields _ _) =>
    (match fields.filter (fun f => f.1 == "kind") with
     | [(_, opt, .strLit v _)] => !opt && (v == k)
     | _ => false)
  | _ => false

/-- The 1:1 correspondence of a cached kinds list with the member kind
literals, pointwise in order. -/
def kindsInvB (schema : SchemaT) : List Ty → List String → Bool
  | [], [] => true
  | m :: ms, k :: ks => memberHasKindB schema m k && kindsInvB schema ms ks
  | _, _ => false

/-! ## Concrete schemas and values referenced by the claim checks -/

/-- The value of the worked diagnostic example: an object with boolField
true and optionalField holding the string x. -/
def c7value : Value := .obj [("boolField", .bool true), ("optionalField", .str "x")]

/-- The interface of the worked diagnostic example: required boolField,
optional optionalField, both boolean. -/
def c7type : Ty :=
  .interfaceT [("boolField", false, .bool none), ("optionalField", true, .bool none)] [] none

/-- The diagnostic the checker produces for c7value against c7type: the
rendered value is 38 characters, shorter than 40, so it is shown inline
in the header and the last While checking line of the failure is dropped
instead of a value = trailer being appended. -/
def c7diag : String := "value (aka. `\x7b\"boolField\":true,\"optionalField\":\"x\"\x7d`) does not conform to _TYPE_!\n\nExpected Javascript type boolean, but got type string\nWhile checking value[\x27optionalField\x27] (aka. `\x27x\x27`) against type boolean\n\n_TYPE_ = \x7b\n  \"kind\": \"interface\",\n  \"fields\": [\n    \x7b\n      \"name\": \"boolField\",\n      \"optional\": false,\n      \"type\": \x7b\n        \"kind\": \"boolean\"\n      \x7d\n    \x7d,\n    \x7b\n      \"name\": \"optionalField\",\n      \"optional\": true,\n      \"type\": \x7b\n        \"kind\": \"boolean\"\n      \x7d\n    \x7d\n  ],\n  \"heritage\": []\n\x7d"

/-- A two-interface schema with inheritance: Sub extends Base, and Base
has a required boolean field b. -/
def heritageSchema : SchemaT :=
  [("Base", .interfaceT [("b", false, .bool none)] [] (some "Base")),
   ("Sub", .interfaceT [] [.ref "Base" none] (some "Sub"))]

/-- A schema binding the name K to unrestricted string, so that the
reference K resolves to string. -/
def refToStringSchema : SchemaT := [("K", .str none none)]

/-- A discriminated-union schema: interfaces A and B tagged with kind
string literals a and b. -/
def kindSchema : SchemaT :=
  [("A", .interfaceT [("kind", false, .strLit "a" none)] [] (some "A")),
   ("B", .interfaceT [("kind", false, .strLit "b" none)] [] (some "B"))]

/-- The members of the discriminated union over kindSchema. -/
def kindMembers : List Ty := [.ref "A" none, .ref "B" none]

theorem classify_eq_ok_iff (r : Except Exc Unit) : classify r = .ok ↔ r = .ok () := by
  cases r with
  | ok u => cases u; simp [classify]
  | error e => cases e <;> simp [classify]

theorem classify_frameWrap (value : Value) (vs : String) (t : Ty) (ts : String)
    (r : Except Exc Unit) : classify (frameWrap value vs t ts r) = classify r := by
  cases r with
  | ok u => rfl
  | error e => cases e <;> rfl

theorem frameWrap_ok_iff (value : Value) (vs : String) (t : Ty) (ts : String)
    (r : Except Exc Unit) : frameWrap value vs t ts r = .ok () ↔ r = .ok () := by
  rw [← classify_eq_ok_iff, classify_frameWrap, classify_eq_ok_iff]

/-- Case split induced by equal classifications. -/
theorem classify_cases {r1 r2 : Except Exc Unit} (h : classify r1 = classify r2) :
    (r1 = .ok () ∧ r2 = .ok ()) ∨
    (∃ m1 m2, r1 = .error (.typechecking m1) ∧ r2 = .error (.typechecking m2)) ∨
    (∃ m, r1 = .error (.schemaError m) ∧ r2 = .error (.schemaError m)) ∨
    (∃ m, r1 = .error (.jsError m) ∧ r2 = .error (.jsError m)) ∨
    (r1 = .error .fuelOut ∧ r2 = .error .fuelOut) := by
  cases r1 with
  | ok u =>
    cases u
    rw [show classify (Except.ok ()) = Outcome.ok from rfl] at h
    exact Or.inl ⟨rfl, ((classify_eq_ok_iff r2).1 h.symm)⟩
  | error e1 =>
    cases r2 with
    | ok u =>
      cases u
      cases e1 <;> simp [classify] at h
    | error e2 =>
      cases e1 <;> cases e2 <;> simp_all [classify]

theorem resolveType_nonref (schema : SchemaT) (t : Ty) (h : t.isRef = false) :
    resolveType schema t = .ok t := by
  unfold resolveType resolveTypeFuel
  cases t <;> simp_all [Ty.isRef]

theorem helper_zero (v : Value) (t : Ty) (schema : SchemaT) (vs ts : String) (d : Nat)
    (o : Options) : checkValueAgainstTypeHelper 0 v t schema vs ts d o = .error .fuelOut := rfl

theorem seqE_classify {α : Type} {f g : α → Except Exc Unit} :
    ∀ xs : List α, (∀ x ∈ xs, classify (f x) = classify (g x)) →
      classify (seqE f xs) = classify (seqE g xs)
  | [], _ => rfl
  | x :: xs, h => by
    have hx := h x (List.mem_cons_self x xs)
    rcases classify_cases hx with ⟨h1, h2⟩ | ⟨m1, m2, h1, h2⟩ | ⟨m, h1, h2⟩ | ⟨m, h1, h2⟩ | ⟨h1, h2⟩
    · simp only [seqE, h1, h2]
      exact seqE_classify xs (fun y hy => h y (List.mem_cons_of_mem x hy))
    · simp only [seqE, h1, h2]; rfl
    · simp only [seqE, h1, h2]
    · simp only [seqE, h1, h2]
    · simp only [seqE, h1, h2]

theorem seqE_ok_iff {α : Type} (f : α → Except Exc Unit) :
    ∀ xs : List α, (seqE f xs = .ok () ↔ ∀ x ∈ xs, f x = .ok ())
  | [] => by simp [seqE]
  | x :: xs => by
    simp only [seqE]
    cases hx : f x with
    | ok u =>
      cases u
      rw [seqE_ok_iff f xs]
      constructor
      · intro h y hy
        rcases List.mem_cons.1 hy with rfl | hy2
        · exact hx
        · exact h y hy2
      · intro h y hy
        exact h y (List.mem_cons_of_mem x hy)
    | error e =>
      constructor
      · intro h
        exact absurd h (by simp)
      · intro h
        have hxx := h x (List.mem_cons_self x xs)
        rw [hx] at hxx
        exact absurd hxx (by simp)

theorem seqIdx_classify {α : Type} {f g : Nat → α → Except Exc Unit} :
    ∀ (i : Nat) (xs : List α), (∀ (j : Nat), ∀ x ∈ xs, classify (f j x) = classify (g j x)) →
      classify (seqIdx f i xs) = classify (seqIdx g i xs)
  | _, [], _ => rfl
  | i, x :: xs, h => by
    have hx := h i x (List.mem_cons_self x xs)
    rcases classify_cases hx with ⟨h1, h2⟩ | ⟨m1, m2, h1, h2⟩ | ⟨m, h1, h2⟩ | ⟨m, h1, h2⟩ | ⟨h1, h2⟩
    · simp only [seqIdx, h1, h2]
      exact seqIdx_classify (i+1) xs (fun j y hy => h j y (List.mem_cons_of_mem x hy))
    · simp only [seqIdx, h1, h2]; rfl
    · simp only [seqIdx, h1, h2]
    · simp only [seqIdx, h1, h2]
    · simp only [seqIdx, h1, h2]

theorem unionLoop_classify {f g : Nat → Ty → Except Exc Unit} :
    ∀ (i : Nat) (e1 e2 : List String) (ms : List Ty),
      (∀ (j : Nat), ∀ m ∈ ms, classify (f j m) = classify (g j m)) →
      classify (unionLoop f i e1 ms) = classify (unionLoop g i e2 ms)
  | _, _, _, [], _ => rfl
  | i, e1, e2, m :: ms, h => by
    have hm := h i m (List.mem_cons_self m ms)
    rcases classify_cases hm with ⟨h1, h2⟩ | ⟨m1, m2, h1, h2⟩ | ⟨m3, h1, h2⟩ | ⟨m3, h1, h2⟩ | ⟨h1, h2⟩
    · simp only [unionLoop, h1, h2]
    · simp only [unionLoop, h1, h2]
      exact unionLoop_classify (i+1) _ _ ms (fun j y hy => h j y (List.mem_cons_of_mem m hy))
    · simp only [unionLoop, h1, h2]
    · simp only [unionLoop, h1, h2]
    · simp only [unionLoop, h1, h2]

/-- The switch body classifies the same under any value path, type path
and depth, provided the recursive checker does. -/
theorem checkBody_classify
    (sub sub2 : Value → Ty → String → String → Nat → Options → Except Exc Unit)
    (props : Ty → Except Exc (List String)) (schema : SchemaT) (value : Value) (type1 : Ty)
    (vs ts vs2 ts2 : String) (d d2 : Nat) (o : Options)
    (hsub : ∀ v' t' a1 b1 c1 a2 b2 c2 o',
      classify (sub v' t' a1 b1 c1 o') = classify (sub2 v' t' a2 b2 c2 o')) :
    classify (checkBody sub props schema value type1 vs ts d o)
      = classify (checkBody sub2 props schema value type1 vs2 ts2 d2 o) := by
  cases type1 with
  | str sn nm => rfl
  | num nm => rfl
  | bool nm => rfl
  | null nm => rfl
  | undefined nm => rfl
  | unknown nm => rfl
  | strLit sv nm => rfl
  | numLit nv nm => rfl
  | boolLit bv nm => rfl
  | keyof base nm => rfl
  | ref r nm => rfl
  | omitT base ofs nm => exact hsub _ _ _ _ _ _ _ _ _
  | indexSignature kt vt nm =>
    simp only [checkBody]
    cases checkJsType value "object" with
    | error e => rfl
    | ok u =>
      cases objectKeysE value with
      | error e => rfl
      | ok keys =>
        exact seqE_classify keys (fun k _ => hsub _ _ _ _ _ _ _ _ _)
  | mapped mapFrom opt mapTo nm =>
    simp only [checkBody]
    cases checkJsType value "object" with
    | error e => rfl
    | ok u =>
      by_cases hk : mapFrom.isStrKind = true
      · simp only [hk, if_true]
        cases objectKeysE value with
        | error e => rfl
        | ok keys =>
          refine seqE_classify keys (fun k _ => ?_)
          by_cases hig : (o.ignoredFields.contains k) = true
          · simp only [hig, if_true]
          · simp only [hig, if_false, Bool.false_eq_true]
            exact hsub _ _ _ _ _ _ _ _ _
      · simp only [Bool.not_eq_true] at hk
        simp only [hk, Bool.false_eq_true, if_false]
        cases props (.mapped mapFrom opt mapTo nm) with
        | error e => rfl
        | ok properties =>
          refine seqE_classify properties (fun p _ => ?_)
          by_cases hig : (o.ignoredFields.contains p) = true
          · simp only [hig, if_true]
          · simp only [hig, if_false, Bool.false_eq_true]
            by_cases hmiss : (!opt && !o.partialMode && !hasProperty value p) = true
            · simp only [hmiss, if_true]
            · simp only [hmiss, Bool.false_eq_true, if_false]
              by_cases hhas : (hasProperty value p) = true
              · simp only [hhas, if_true]
                exact hsub _ _ _ _ _ _ _ _ _
              · simp only [hhas, Bool.false_eq_true, if_false]
  | intersection ms nm =>
    simp only [checkBody]
    exact seqE_classify ms (fun m _ => hsub _ _ _ _ _ _ _ _ _)
  | array elementType nm =>
    simp only [checkBody]
    cases checkJsType value "object" with
    | error e => rfl
    | ok u =>
      cases value <;> try rfl
      exact seqIdx_classify 0 _ (fun j x _ => hsub _ _ _ _ _ _ _ _ _)
  | partialT elementType nm =>
    simp only [checkBody]
    cases resolveType schema elementType with
    | error e => rfl
    | ok resolved => exact hsub _ _ _ _ _ _ _ _ _
  | interfaceT fields heritage nm =>
    simp only [checkBody]
    cases checkJsType value "object" with
    | error e => rfl
    | ok u =>
      have hfields : classify (seqE (fun f =>
          if o.ignoredFields.contains f.1 then .ok ()
          else if !f.2.1 && !o.partialMode && !(hasProperty value f.1) then
            .error (.typechecking ("Field " ++ quote1 f.1 ++ " is not optional but missing from value"))
          else if hasProperty value f.1 then
            sub (getProp value f.1) f.2.2 (vs ++ "[" ++ quote1 f.1 ++ "]")
              (typeToShortString f.2.2 (some (ts ++ "[" ++ quote1 f.1 ++ "]"))) (d+1) default
          else .ok ()) fields)
          = classify (seqE (fun f =>
          if o.ignoredFields.contains f.1 then .ok ()
          else if !f.2.1 && !o.partialMode && !(hasProperty value f.1) then
            .error (.typechecking ("Field " ++ quote1 f.1 ++ " is not optional but missing from value"))
          else if hasProperty value f.1 then
            sub2 (getProp value f.1) f.2.2 (vs2 ++ "[" ++ quote1 f.1 ++ "]")
              (typeToShortString f.2.2 (some (ts2 ++ "[" ++ quote1 f.1 ++ "]"))) (d2+1) default
          else .ok ()) fields) := by
        refine seqE_classify fields (fun f _ => ?_)
        by_cases hig : (o.ignoredFields.contains f.1) = true
        · simp only [hig, if_true]
        · simp only [hig, Bool.false_eq_true, if_false]
          by_cases hmiss : (!f.2.1 && !o.partialMode && !hasProperty value f.1) = true
          · simp only [hmiss, if_true]
          · simp only [hmiss, Bool.false_eq_true, if_false]
            by_cases hhas : (hasProperty value f.1) = true
            · simp only [hhas, if_true]
              exact hsub _ _ _ _ _ _ _ _ _
            · simp only [hhas, Bool.false_eq_true, if_false]
      rcases classify_cases hfields with ⟨h1, h2⟩ | ⟨m1, m2, h1, h2⟩ | ⟨m3, h1, h2⟩ | ⟨m3, h1, h2⟩ | ⟨h1, h2⟩
      · simp only [h1, h2]
        exact seqE_classify heritage (fun hr _ => hsub _ _ _ _ _ _ _ _ _)
      · simp only [h1, h2]; rfl
      · simp only [h1, h2]
      · simp only [h1, h2]
      · simp only [h1, h2]
  | union ms kinds unm =>
    simp only [checkBody]
    cases isEnum (.union ms kinds unm) with
    | some enums => rfl
    | none =>
      cases kinds with
      | none =>
        exact unionLoop_classify 0 [] [] ms (fun j m _ => hsub _ _ _ _ _ _ _ _ _)
      | some ks =>
        cases checkJsType value "object" with
        | error e => rfl
        | ok u =>
          by_cases h1 : (!(hasProperty value "kind")) = true
          · simp only [h1, if_true]
          · simp only [h1, Bool.false_eq_true, if_false]
            by_cases h2 : (!(jsTypeof (getProp value "kind") == "string")) = true
            · simp only [h2, if_true]
            · simp only [h2, Bool.false_eq_true, if_false]
              by_cases h3 : (!(ks.contains (getProp value "kind").asString)) = true
              · simp only [h3, if_true]
              · simp only [h3, Bool.false_eq_true, if_false]
                cases findKindMember schema (getProp value "kind").asString ms with
                | error e => rfl
                | ok res =>
                  cases res with
                  | none => rfl
                  | some ukt =>
                    have hd := hsub value ukt vs
                      (typeToShortString ukt (some (ts ++ "[kind == " ++ quote1 (getProp value "kind").asString ++ "]")))
                      (d+1) vs2
                      (typeToShortString ukt (some (ts2 ++ "[kind == " ++ quote1 (getProp value "kind").asString ++ "]")))
                      (d2+1) ⟨false, o.ignoredFields⟩
                    rcases classify_cases hd with ⟨ha, hb⟩ | ⟨m1, m2, ha, hb⟩ | ⟨m3, ha, hb⟩ | ⟨m3, ha, hb⟩ | ⟨ha, hb⟩
                    · simp only [ha, hb]
                      exact unionLoop_classify 0 [] [] ms (fun j m _ => hsub _ _ _ _ _ _ _ _ _)
                    · simp only [ha, hb]; rfl
                    · simp only [ha, hb]
                    · simp only [ha, hb]
                    · simp only [ha, hb]

/-- The checker frame classifies the same under any value path, type
path and depth. -/
theorem classify_helper_ctx :
    ∀ (n : Nat) (v : Value) (t : Ty) (schema : SchemaT) (vs ts : String) (d : Nat) (o : Options)
      (vs2 ts2 : String) (d2 : Nat),
      classify (checkValueAgainstTypeHelper n v t schema vs ts d o)
        = classify (checkValueAgainstTypeHelper n v t schema vs2 ts2 d2 o) := by
  intro n
  induction n with
  | zero => intro v t schema vs ts d o vs2 ts2 d2; rfl
  | succ k ih =>
    intro v t schema vs ts d o vs2 ts2 d2
    simp only [checkValueAgainstTypeHelper]
    cases resolveType schema t with
    | error e => rfl
    | ok t1 =>
      by_cases hp : (o.partialMode && !t1.isInterfaceKind) = true
      · simp only [hp, if_true]
      · simp only [hp, Bool.false_eq_true, if_false]
        rw [classify_frameWrap, classify_frameWrap]
        exact checkBody_classify _ _ _ schema v t1 vs ts vs2 ts2 d d2 o
          (fun v' t' a1 b1 c1 a2 b2 c2 o' => ih v' t' schema a1 b1 c1 o' a2 b2 c2)

/-! ## Characterisation of the union case -/

theorem classify_eq_tcFail_iff (r : Except Exc Unit) :
    classify r = .tcFail ↔ ∃ m, r = .error (.typechecking m) := by
  cases r with
  | ok u => cases u; simp [classify]
  | error e => cases e <;> simp [classify]

theorem checkJsType_ok_iff (v : Value) (s : String) :
    checkJsType v s = .ok () ↔ jsTypeof v = s := by
  unfold checkJsType
  by_cases h : (jsTypeof v == s) = true
  · simp only [h, if_true]
    simp only [beq_iff_eq] at h
    simp [h]
  · simp only [h, Bool.false_eq_true, if_false]
    simp only [beq_iff_eq] at h
    simp [h]

theorem str_of_typeof {v : Value} (h : jsTypeof v = "string") : v = .str v.asString := by
  cases v <;> simp_all [jsTypeof, Value.asString]

theorem obj_typeof_of_hasProperty {v : Value} {k : String} (h : hasProperty v k = true) :
    jsTypeof v = "object" := by
  cases v <;> simp_all [hasProperty, jsTypeof]

theorem strLit_check_ok_iff (n : Nat) (v : Value) (s : String) (lnm : Option String)
    (schema : SchemaT) (vs ts : String) (d : Nat) :
    checkValueAgainstTypeHelper (n+1) v (.strLit s lnm) schema vs ts d ⟨false, []⟩ = .ok ()
      ↔ v = .str s := by
  simp only [checkValueAgainstTypeHelper]
  rw [resolveType_nonref schema _ (by rfl)]
  simp only [Ty.isInterfaceKind, Bool.false_and, Bool.and_self, Bool.false_eq_true, if_false]
  rw [frameWrap_ok_iff]
  simp only [checkBody]
  cases v <;> simp [checkJsType, jsTypeof, Value.asString, beq_iff_eq]

theorem isEnumVals_all_strLit :
    ∀ {ms : List Ty} {es : List String}, isEnumVals ms = some es →
      ∀ m ∈ ms, ∃ x lnm, m = Ty.strLit x lnm := by
  intro ms
  induction ms with
  | nil => intro es h m hm; exact absurd hm (List.not_mem_nil m)
  | cons m0 rest ih =>
    intro es h m hm
    cases m0
    case strLit x lnm =>
      rcases List.mem_cons.1 hm with rfl | hm2
      · exact ⟨x, lnm, rfl⟩
      · simp only [isEnumVals] at h
        cases hrest : isEnumVals rest with
        | none => rw [hrest] at h; simp at h
        | some es' => exact ih hrest m hm2
    all_goals simp [isEnumVals] at h

theorem isEnumVals_mem :
    ∀ {ms : List Ty} {es : List String}, isEnumVals ms = some es →
      ∀ x, (es.contains x = true ↔ ∃ lnm, Ty.strLit x lnm ∈ ms) := by
  intro ms
  induction ms with
  | nil =>
    intro es h x
    simp only [isEnumVals, Option.some.injEq] at h
    subst h
    simp
  | cons m0 rest ih =>
    intro es h x
    cases m0
    case strLit v lnm =>
      simp only [isEnumVals] at h
      cases hrest : isEnumVals rest with
      | none => rw [hrest] at h; simp at h
      | some es' =>
        rw [hrest] at h
        simp only [Option.map, Option.some.injEq] at h
        subst h
        simp only [List.contains_cons, Bool.or_eq_true, beq_iff_eq]
        rw [ih hrest x]
        constructor
        · rintro (rfl | ⟨lnm2, hm⟩)
          · exact ⟨lnm, List.mem_cons_self _ _⟩
          · exact ⟨lnm2, List.mem_cons_of_mem _ hm⟩
        · rintro ⟨lnm2, hm⟩
          rcases List.mem_cons.1 hm with heq | hm2
          · cases heq; exact Or.inl rfl
          · exact Or.inr ⟨lnm2, hm2⟩
    all_goals simp [isEnumVals] at h

theorem unionLoop_ok_exists {f : Nat → Ty → Except Exc Unit} :
    ∀ (i : Nat) (errs : List String) (ms : List Ty), unionLoop f i errs ms = .ok () →
      ∃ j, ∃ m ∈ ms, f j m = .ok ()
  | _, _, [], h => Except.noConfusion h
  | i, errs, m :: ms, h => by
    cases hm : f i m with
    | ok u =>
      cases u
      exact ⟨i, m, List.mem_cons_self m ms, hm⟩
    | error e =>
      cases e with
      | typechecking msg =>
        rw [unionLoop, hm] at h
        obtain ⟨j, m', hm', hok⟩ := unionLoop_ok_exists (i+1) _ ms h
        exact ⟨j, m', List.mem_cons_of_mem m hm', hok⟩
      | schemaError msg => rw [unionLoop, hm] at h; simp at h
      | jsError msg => rw [unionLoop, hm] at h; simp at h
      | fuelOut => rw [unionLoop, hm] at h; simp at h

theorem unionLoop_ok_of {f : Nat → Ty → Except Exc Unit} {cl : Ty → Outcome} :
    ∀ {ms : List Ty}, (∀ (j : Nat), ∀ m ∈ ms, classify (f j m) = cl m) →
      (∀ m ∈ ms, (cl m).isGen = false) →
      (∃ m ∈ ms, cl m = .ok) →
      ∀ (i : Nat) (errs : List String), unionLoop f i errs ms = .ok () := by
  intro ms
  induction ms with
  | nil =>
    intro _ _ hex i errs
    obtain ⟨m, hm, _⟩ := hex
    exact absurd hm (List.not_mem_nil m)
  | cons m0 rest ih =>
    intro hcl hng hex i errs
    have hc0 := hcl i m0 (List.mem_cons_self m0 rest)
    cases hcase : cl m0 with
    | ok =>
      rw [hcase] at hc0
      have : f i m0 = .ok () := (classify_eq_ok_iff _).1 hc0
      simp [unionLoop, this]
    | tcFail =>
      rw [hcase] at hc0
      obtain ⟨msg, hmsg⟩ := (classify_eq_tcFail_iff _).1 hc0
      rw [unionLoop, hmsg]
      have hex' : ∃ m ∈ rest, cl m = .ok := by
        obtain ⟨m, hm, hok⟩ := hex
        rcases List.mem_cons.1 hm with rfl | hm2
        · rw [hcase] at hok; cases hok
        · exact ⟨m, hm2, hok⟩
      exact ih (fun j m hm => hcl j m (List.mem_cons_of_mem m0 hm))
        (fun m hm => hng m (List.mem_cons_of_mem m0 hm)) hex' _ _
    | genErr e =>
      have := hng m0 (List.mem_cons_self m0 rest)
      rw [hcase] at this
      simp [Outcome.isGen] at this

theorem memberHasKindB_spec {schema : SchemaT} {m : Ty} {k : String}
    (h : memberHasKindB schema m k = true) :
    ∃ fields her inm lnm, resolveType schema m = .ok (.interfaceT fields her inm) ∧
      fields.filter (fun f => f.1 == "kind") = [("kind", false, .strLit k lnm)] := by
  unfold memberHasKindB at h
  split at h
  · rename_i fields her inm heq
    split at h
    · rename_i arm a opt v lnm heq2
      simp only [Bool.and_eq_true, Bool.not_eq_true', beq_iff_eq] at h
      obtain ⟨hopt, hv⟩ := h
      have hmem : (a, opt, Ty.strLit v lnm) ∈ fields.filter (fun f => f.1 == "kind") := by
        rw [heq2]; exact List.mem_singleton.2 rfl
      have ha : a = "kind" := by
        have := (List.mem_filter.1 hmem).2
        simpa [beq_iff_eq] using this
      subst ha; subst hopt; subst hv
      exact ⟨fields, her, inm, lnm, heq, heq2⟩
    · simp at h
  · simp at h

theorem matchesKind_iff_of_filter {fields : List FieldT} {her : List Ty} {inm : Option String}
    {k : String} {lnm : Option String}
    (hfil : fields.filter (fun f => f.1 == "kind") = [("kind", false, Ty.strLit k lnm)]) :
    ∀ k', (memberMatchesKind (.interfaceT fields her inm) k' = true ↔ k' = k) := by
  intro k'
  simp only [memberMatchesKind, List.any_eq_true]
  constructor
  · rintro ⟨f, hf, hpred⟩
    simp only [Bool.and_eq_true, beq_iff_eq] at hpred
    have hfmem : f ∈ fields.filter (fun f => f.1 == "kind") :=
      List.mem_filter.2 ⟨hf, by simp [hpred.1]⟩
    rw [hfil] at hfmem
    have hfeq := List.mem_singleton.1 hfmem
    subst hfeq
    obtain ⟨-, hlit⟩ := hpred
    have : k = k' := by simpa [beq_iff_eq] using hlit
    exact this.symm
  · intro heq
    have hmem : ("kind", false, Ty.strLit k lnm) ∈ fields.filter (fun f => f.1 == "kind") := by
      rw [hfil]; exact List.mem_singleton.2 rfl
    refine ⟨_, (List.mem_filter.1 hmem).1, ?_⟩
    simp [heq]

theorem memberHasKindB_unique_value {schema : SchemaT} {m : Ty} {k k' : String}
    (h1 : memberHasKindB schema m k = true) (h2 : memberHasKindB schema m k' = true) :
    k = k' := by
  obtain ⟨f1, h1b, i1, l1, hres1, hfil1⟩ := memberHasKindB_spec h1
  obtain ⟨f2, h2b, i2, l2, hres2, hfil2⟩ := memberHasKindB_spec h2
  rw [hres1] at hres2
  injection hres2 with ht
  injection ht with hf hrest
  subst hf
  rw [hfil1] at hfil2
  simp at hfil2
  exact hfil2.1

theorem kindsInvB_mem {schema : SchemaT} :
    ∀ {ms : List Ty} {ks : List String}, kindsInvB schema ms ks = true →
      ∀ m ∈ ms, ∃ k, memberHasKindB schema m k = true ∧ ks.contains k = true := by
  intro ms
  induction ms with
  | nil => intro ks _ m hm; exact absurd hm (List.not_mem_nil m)
  | cons m0 rest ih =>
    intro ks hinv m hm
    cases ks with
    | nil => simp [kindsInvB] at hinv
    | cons k0 ks' =>
      simp only [kindsInvB, Bool.and_eq_true] at hinv
      rcases List.mem_cons.1 hm with rfl | hm2
      · exact ⟨k0, hinv.1, by simp⟩
      · obtain ⟨k, hk, hc⟩ := ih hinv.2 m hm2
        refine ⟨k, hk, ?_⟩
        have hmem : k ∈ ks' := by simpa using hc
        simp [List.contains_cons, hmem]

theorem kindsInvB_member_unique {schema : SchemaT} :
    ∀ {ms : List Ty} {ks : List String}, kindsInvB schema ms ks = true → ks.Nodup →
      ∀ m1 ∈ ms, ∀ m2 ∈ ms, ∀ k, memberHasKindB schema m1 k = true →
        memberHasKindB schema m2 k = true → m1 = m2 := by
  intro ms
  induction ms with
  | nil => intro ks _ _ m1 hm1; exact absurd hm1 (List.not_mem_nil m1)
  | cons m0 rest ih =>
    intro ks hinv hnd m1 hm1 m2 hm2 k hk1 hk2
    cases ks with
    | nil => simp [kindsInvB] at hinv
    | cons k0 ks' =>
      simp only [kindsInvB, Bool.and_eq_true] at hinv
      have hnd' := List.nodup_cons.1 hnd
      have htail : ∀ m' ∈ rest, memberHasKindB schema m' k0 = true → False := by
        intro m' hm' hk'
        obtain ⟨k2, hk2', hc2⟩ := kindsInvB_mem hinv.2 m' hm'
        have hk02 : k0 = k2 := memberHasKindB_unique_value hk' hk2'
        subst hk02
        have : k0 ∈ ks' := by simpa using hc2
        exact hnd'.1 this
      rcases List.mem_cons.1 hm1 with rfl | hm1t
      · rcases List.mem_cons.1 hm2 with rfl | hm2t
        · rfl
        · have hkk0 : k = k0 := memberHasKindB_unique_value hk1 hinv.1
          subst hkk0
          exact (htail m2 hm2t hk2).elim
      · rcases List.mem_cons.1 hm2 with rfl | hm2t
        · have hkk0 : k = k0 := memberHasKindB_unique_value hk2 hinv.1
          subst hkk0
          exact (htail m1 hm1t hk1).elim
        · exact ih hinv.2 hnd'.2 m1 hm1t m2 hm2t k hk1 hk2

theorem findKindMember_found {schema : SchemaT} :
    ∀ {ms : List Ty} {ks : List String}, kindsInvB schema ms ks = true →
      ∀ k, ks.contains k = true →
      ∃ m, findKindMember schema k ms = .ok (some m) ∧ m ∈ ms ∧ memberHasKindB schema m k = true := by
  intro ms
  induction ms with
  | nil =>
    intro ks hinv k hk
    cases ks with
    | nil => simp at hk
    | cons k0 ks' => simp [kindsInvB] at hinv
  | cons m0 rest ih =>
    intro ks hinv k hk
    cases ks with
    | nil => simp [kindsInvB] at hinv
    | cons k0 ks' =>
      simp only [kindsInvB, Bool.and_eq_true] at hinv
      obtain ⟨fields, her, inm, lnm, hres, hfil⟩ := memberHasKindB_spec hinv.1
      by_cases hkk : k = k0
      · subst hkk
        refine ⟨m0, ?_, List.mem_cons_self m0 rest, hinv.1⟩
        rw [findKindMember, hres]
        have : memberMatchesKind (.interfaceT fields her inm) k = true :=
          (matchesKind_iff_of_filter hfil k).2 rfl
        simp [this]
      · have hk' : ks'.contains k = true := by
          simp only [List.contains_cons, Bool.or_eq_true, beq_iff_eq] at hk
          rcases hk with h | h
          · exact absurd h hkk
          · exact h
        obtain ⟨m, hfind, hm, hkm⟩ := ih hinv.2 k hk'
        refine ⟨m, ?_, List.mem_cons_of_mem m0 hm, hkm⟩
        rw [findKindMember, hres]
        have : memberMatchesKind (.interfaceT fields her inm) k = false := by
          rw [← Bool.not_eq_true]
          intro hcon
          exact hkk ((matchesKind_iff_of_filter hfil k).1 hcon)
        simp [this, hfind]

/-- One frame of the checker in non-partial mode, on a type resolving to
t1, reduced to its body. -/
theorem helper_succ_body_of_res (n : Nat) (v : Value) (t : Ty) (schema : SchemaT)
    (vs ts : String) (d : Nat) (ign : List String) (t1 : Ty)
    (hres : resolveType schema t = .ok t1) :
    checkValueAgainstTypeHelper (n+1) v t schema vs ts d ⟨false, ign⟩
      = frameWrap v vs t1 ts (checkBody
          (fun v2 t2 vs2 ts2 d2 o2 => checkValueAgainstTypeHelper n v2 t2 schema vs2 ts2 d2 o2)
          (fun t2 => computePropertiesOfType n schema t2) schema v t1 vs ts d ⟨false, ign⟩) := by
  simp only [checkValueAgainstTypeHelper]
  rw [hres]
  exact rfl

/-- One frame of the checker on a non-reference type in non-partial
mode, reduced to its body. -/
theorem helper_succ_body (n : Nat) (v : Value) (t : Ty) (schema : SchemaT) (vs ts : String)
    (d : Nat) (ign : List String) (href : t.isRef = false) :
    checkValueAgainstTypeHelper (n+1) v t schema vs ts d ⟨false, ign⟩
      = frameWrap v vs t ts (checkBody
          (fun v2 t2 vs2 ts2 d2 o2 => checkValueAgainstTypeHelper n v2 t2 schema vs2 ts2 d2 o2)
          (fun t2 => computePropertiesOfType n schema t2) schema v t vs ts d ⟨false, ign⟩) :=
  helper_succ_body_of_res n v t schema vs ts d ign t (resolveType_nonref schema t href)

theorem helper_succ_ok_iff (n : Nat) (v : Value) (t : Ty) (schema : SchemaT) (vs ts : String)
    (d : Nat) (ign : List String) (href : t.isRef = false) :
    (checkValueAgainstTypeHelper (n+1) v t schema vs ts d ⟨false, ign⟩ = .ok ()
      ↔ checkBody
          (fun v2 t2 vs2 ts2 d2 o2 => checkValueAgainstTypeHelper n v2 t2 schema vs2 ts2 d2 o2)
          (fun t2 => computePropertiesOfType n schema t2) schema v t vs ts d ⟨false, ign⟩ = .ok ()) := by
  rw [helper_succ_body n v t schema vs ts d ign href]
  exact frameWrap_ok_iff v vs t ts _

/-- A successful member check against a member carrying the kind
invariant pins the checked value down: it is an object whose kind
property holds exactly the member kind literal. -/
theorem member_ok_kind {schema : SchemaT} {m : Ty} {k : String} {n : Nat} {v : Value}
    {vs ts : String} {d : Nat}
    (hk : memberHasKindB schema m k = true)
    (hok : checkValueAgainstTypeHelper n v m schema vs ts d ⟨false, []⟩ = .ok ()) :
    jsTypeof v = "object" ∧ hasProperty v "kind" = true ∧ getProp v "kind" = .str k := by
  obtain ⟨fields, her, inm, lnm, hres, hfil⟩ := memberHasKindB_spec hk
  cases n with
  | zero => exact absurd hok (by simp [helper_zero])
  | succ n2 =>
    rw [helper_succ_body_of_res n2 v m schema vs ts d [] _ hres] at hok
    rw [frameWrap_ok_iff] at hok
    simp only [checkBody] at hok
    split at hok
    · exact absurd hok (by simp)
    · rename_i u heqjs
      have hjs : jsTypeof v = "object" := (checkJsType_ok_iff v "object").1 (by cases u; exact heqjs)
      refine ⟨hjs, ?_⟩
      split at hok
      · exact absurd hok (by simp)
      · rename_i u2 heqseq
        cases u2
        have hall := (seqE_ok_iff _ fields).1 heqseq
        have hmem : ("kind", false, Ty.strLit k lnm) ∈ fields := by
          have hx : ("kind", false, Ty.strLit k lnm) ∈ fields.filter (fun f => f.1 == "kind") := by
            rw [hfil]; exact List.mem_singleton.2 rfl
          exact (List.mem_filter.1 hx).1
        have hstep := hall _ hmem
        simp only [show ((⟨false, []⟩ : Options).ignoredFields.contains
          (("kind", false, Ty.strLit k lnm).1)) = false from rfl, Bool.false_eq_true,
          if_false] at hstep
        by_cases hhas : hasProperty v "kind" = true
        · refine ⟨hhas, ?_⟩
          rw [if_neg (by simp [hhas]), if_pos (by simpa using hhas)] at hstep
          rw [show (default : Options) = (⟨false, []⟩ : Options) from rfl] at hstep
          cases n2 with
          | zero => exact absurd hstep (by simp [helper_zero])
          | succ n3 =>
            have := (strLit_check_ok_iff n3 (getProp v "kind") k lnm schema _ _ _).1 hstep
            exact this
        · rw [if_pos (by simp [hhas])] at hstep
          exact absurd hstep (by simp)

theorem checkJsType_error_of {v : Value} {s : String} (h : ¬ jsTypeof v = s) :
    checkJsType v s
      = .error (.typechecking ("Expected Javascript type " ++ s ++ ", but got type " ++ jsTypeof v)) := by
  unfold checkJsType
  rw [if_neg (by simp [beq_iff_eq, h])]

theorem fuel_pos_of_hng {schema : SchemaT} {v : Value} {ms : List Ty} {n : Nat}
    (hng : ∀ m ∈ ms, (classify (checkValueAgainstTypeHelper n v m schema "value" "_TYPE_" 0
      ⟨false, []⟩)).isGen = false)
    (hne : ms ≠ []) : ∃ n2, n = n2 + 1 := by
  cases n with
  | succ n2 => exact ⟨n2, rfl⟩
  | zero =>
    obtain ⟨m, hm⟩ := List.exists_mem_of_ne_nil ms hne
    have := hng m hm
    rw [helper_zero] at this
    simp [classify, Outcome.isGen] at this

/-- The union case of the checker accepts exactly when some member
accepts, for a union whose cached kinds (if any) satisfy the 1:1
invariant, provided no member check escapes with a non-CheckFailure
exception at the member fuel. -/
theorem union_check_ok_iff (schema : SchemaT) (ms : List Ty) (ks : Option (List String))
    (unm : Option String) (v : Value) (n : Nat)
    (hinv : ∀ l, ks = some l → (l.Nodup ∧ kindsInvB schema ms l = true))
    (hng : ∀ m ∈ ms, (classify (checkValueAgainstTypeHelper n v m schema "value" "_TYPE_" 0
      ⟨false, []⟩)).isGen = false) :
    (checkValueAgainstTypeHelper (n+1) v (.union ms ks unm) schema "value" "_TYPE_" 0 ⟨false, []⟩
        = .ok ()
      ↔ ∃ m ∈ ms, checkValueAgainstTypeHelper n v m schema "value" "_TYPE_" 0 ⟨false, []⟩
        = .ok ()) := by
  rw [helper_succ_ok_iff n v (.union ms ks unm) schema "value" "_TYPE_" 0 [] (by rfl)]
  simp only [checkBody]
  cases hen : isEnum (.union ms ks unm) with
  | some enums =>
    have hen2 : isEnumVals ms = some enums := hen
    simp only [hen]
    by_cases hstr : jsTypeof v = "string"
    · have hv := str_of_typeof hstr
      simp only [(checkJsType_ok_iff v "string").2 hstr]
      by_cases hcont : enums.contains v.asString = true
      · simp only [hcont, if_true]
        refine iff_of_true trivial ?_
        obtain ⟨lnm, hmem⟩ := (isEnumVals_mem hen2 v.asString).1 hcont
        obtain ⟨n2, rfl⟩ := fuel_pos_of_hng hng (by rintro rfl; exact absurd hmem (List.not_mem_nil _))
        exact ⟨_, hmem, (strLit_check_ok_iff n2 v v.asString lnm schema _ _ _).2 hv⟩
      · simp only [hcont, Bool.false_eq_true, if_false]
        refine iff_of_false (fun h => Except.noConfusion h) ?_
        rintro ⟨m, hm, hok⟩
        obtain ⟨x, lnm, rfl⟩ := isEnumVals_all_strLit hen2 m hm
        cases n with
        | zero => exact absurd hok (by simp [helper_zero])
        | succ n2 =>
          have hvx := (strLit_check_ok_iff n2 v x lnm schema _ _ _).1 hok
          have : enums.contains v.asString = true := by
            apply (isEnumVals_mem hen2 v.asString).2
            refine ⟨lnm, ?_⟩
            rw [hvx]
            simpa [Value.asString, hvx] using hm
          exact hcont this
    · rw [checkJsType_error_of hstr]
      refine iff_of_false (fun h => Except.noConfusion h) ?_
      rintro ⟨m, hm, hok⟩
      obtain ⟨x, lnm, rfl⟩ := isEnumVals_all_strLit hen2 m hm
      cases n with
      | zero => exact absurd hok (by simp [helper_zero])
      | succ n2 =>
        have hvx := (strLit_check_ok_iff n2 v x lnm schema _ _ _).1 hok
        rw [hvx] at hstr
        exact hstr rfl
  | none =>
    simp only [hen]
    cases ks with
    | none =>
      constructor
      · intro h
        obtain ⟨j, m, hm, hok⟩ := unionLoop_ok_exists 0 [] ms h
        refine ⟨m, hm, ?_⟩
        have hcl := classify_helper_ctx n v m schema "value"
          (typeToShortString m (some ("_TYPE_" ++ "[" ++ ith (j+1) ++ " union member]")))
          1 ⟨false, []⟩ "value" "_TYPE_" 0
        rw [hok] at hcl
        exact (classify_eq_ok_iff _).1 hcl.symm
      · rintro ⟨m, hm, hok⟩
        apply @unionLoop_ok_of _
          (fun m2 => classify (checkValueAgainstTypeHelper n v m2 schema "value" "_TYPE_" 0
            ⟨false, []⟩)) _
        · intro j m2 hm2
          exact classify_helper_ctx n v m2 schema "value" _ 1 ⟨false, []⟩ "value" "_TYPE_" 0
        · exact hng
        · exact ⟨m, hm, by rw [hok]; rfl⟩
    | some ks2 =>
      obtain ⟨hnd, hkinv⟩ := hinv ks2 rfl
      by_cases hobj : jsTypeof v = "object"
      · simp only [(checkJsType_ok_iff v "object").2 hobj]
        by_cases hhas : hasProperty v "kind" = true
        · simp only [hhas, Bool.not_true, Bool.false_eq_true, if_false]
          by_cases hkstr : jsTypeof (getProp v "kind") = "string"
          · simp only [show (jsTypeof (getProp v "kind") == "string") = true by simp [beq_iff_eq, hkstr],
              Bool.not_true, Bool.false_eq_true, if_false]
            by_cases hcont : ks2.contains (getProp v "kind").asString = true
            · simp only [hcont, Bool.not_true, Bool.false_eq_true, if_false]
              obtain ⟨fm, hfind, hfmem, hfk⟩ := findKindMember_found hkinv _ hcont
              simp only [hfind]
              have hctx := classify_helper_ctx n v fm schema "value"
                (typeToShortString fm (some ("_TYPE_" ++ "[kind == "
                  ++ quote1 (getProp v "kind").asString ++ "]")))
                1 ⟨false, []⟩ "value" "_TYPE_" 0
              cases hc : classify (checkValueAgainstTypeHelper n v fm schema "value" "_TYPE_" 0
                  ⟨false, []⟩) with
              | ok =>
                rw [hc] at hctx
                have hdispatch := (classify_eq_ok_iff _).1 hctx
                simp only [hdispatch]
                refine iff_of_true ?_ ⟨fm, hfmem, (classify_eq_ok_iff _).1 hc⟩
                apply @unionLoop_ok_of _
                  (fun m2 => classify (checkValueAgainstTypeHelper n v m2 schema "value"
                    "_TYPE_" 0 ⟨false, []⟩)) _
                · intro j m2 hm2
                  exact classify_helper_ctx n v m2 schema "value" _ 1 ⟨false, []⟩ "value" "_TYPE_" 0
                · exact hng
                · exact ⟨fm, hfmem, hc⟩
              | tcFail =>
                rw [hc] at hctx
                obtain ⟨msg, hdispatch⟩ := (classify_eq_tcFail_iff _).1 hctx
                simp only [hdispatch]
                refine iff_of_false (fun h => Except.noConfusion h) ?_
                rintro ⟨m2, hm2, hok2⟩
                obtain ⟨k2, hk2, hc2⟩ := kindsInvB_mem hkinv m2 hm2
                obtain ⟨-, -, hget2⟩ := member_ok_kind hk2 hok2
                have hk2eq : k2 = (getProp v "kind").asString := by rw [hget2]; rfl
                rw [hk2eq] at hk2
                have hm2fm : m2 = fm := kindsInvB_member_unique hkinv hnd m2 hm2 fm hfmem _ hk2 hfk
                rw [hm2fm] at hok2
                rw [hok2] at hc
                exact Outcome.noConfusion hc
              | genErr e =>
                have := hng fm hfmem
                rw [hc] at this
                simp [Outcome.isGen] at this
            · simp only [hcont, Bool.not_false, if_true]
              refine iff_of_false (fun h => Except.noConfusion h) ?_
              rintro ⟨m2, hm2, hok2⟩
              obtain ⟨k2, hk2, hc2⟩ := kindsInvB_mem hkinv m2 hm2
              obtain ⟨-, -, hget2⟩ := member_ok_kind hk2 hok2
              have : ks2.contains (getProp v "kind").asString = true := by
                rw [hget2]
                exact hc2
              exact hcont this
          · simp only [show (jsTypeof (getProp v "kind") == "string") = false by
                simp [beq_iff_eq, hkstr], Bool.not_false, if_true]
            refine iff_of_false (fun h => Except.noConfusion h) ?_
            rintro ⟨m2, hm2, hok2⟩
            obtain ⟨k2, hk2, hc2⟩ := kindsInvB_mem hkinv m2 hm2
            obtain ⟨-, -, hget2⟩ := member_ok_kind hk2 hok2
            rw [hget2] at hkstr
            exact hkstr rfl
        · simp only [show hasProperty v "kind" = false from by simpa using hhas,
            Bool.not_false, if_true]
          refine iff_of_false (fun h => Except.noConfusion h) ?_
          rintro ⟨m2, hm2, hok2⟩
          obtain ⟨k2, hk2, hc2⟩ := kindsInvB_mem hkinv m2 hm2
          obtain ⟨-, hhas2, -⟩ := member_ok_kind hk2 hok2
          exact hhas hhas2
      · rw [checkJsType_error_of hobj]
        refine iff_of_false (fun h => Except.noConfusion h) ?_
        rintro ⟨m2, hm2, hok2⟩
        obtain ⟨k2, hk2, hc2⟩ := kindsInvB_mem hkinv m2 hm2
        obtain ⟨hjs2, -, -⟩ := member_ok_kind hk2 hok2
        exact hobj hjs2

theorem composeDiagnostic_ne_empty (value : Value) (type0 : Ty) (msg : String) :
    ¬ composeDiagnostic value type0 msg = "" := by
  intro h
  have hlen := congrArg String.length h
  have h21 : (" does not conform to ").length = 21 := rfl
  have h0 : ("" : String).length = 0 := rfl
  simp only [composeDiagnostic, String.length_append, h21, h0] at hlen
  omega

/-- The public entry point returns the empty string exactly when the
helper succeeds (a diagnostic is never empty, and every non-conformance
diagnostic is surfaced as a non-empty string). -/
theorem check_ok_empty_iff (fuel : Nat) (v : Value) (t : Ty) (s : SchemaT) :
    (checkValueAgainstType fuel v t s = .ok ""
      ↔ checkValueAgainstTypeHelper fuel v t s "value" "_TYPE_" 0 ⟨false, []⟩ = .ok ()) := by
  unfold checkValueAgainstType
  have hd : (default : Options) = ⟨false, []⟩ := rfl
  rw [hd]
  cases h : checkValueAgainstTypeHelper fuel v t s "value" "_TYPE_" 0 ⟨false, []⟩ with
  | ok u =>
    cases u
    simp
  | error e =>
    cases e with
    | typechecking msg =>
      refine iff_of_false ?_ (fun hh => Except.noConfusion hh)
      intro hh
      exact composeDiagnostic_ne_empty v t msg (Except.ok.inj hh)
    | schemaError m =>
      exact iff_of_false (fun hh => Except.noConfusion hh) (fun hh => Except.noConfusion hh)
    | jsError m =>
      exact iff_of_false (fun hh => Except.noConfusion hh) (fun hh => Except.noConfusion hh)
    | fuelOut =>
      exact iff_of_false (fun hh => Except.noConfusion hh) (fun hh => Except.noConfusion hh)

/-- One frame of the checker on an interface type in partial mode,
reduced to its body (an interface passes the Partial guard). -/
theorem helper_succ_partial_interface (n : Nat) (v : Value) (fields : List FieldT)
    (her : List Ty) (inm : Option String) (schema : SchemaT) (vs ts : String) (d : Nat)
    (ign : List String) :
    checkValueAgainstTypeHelper (n+1) v (.interfaceT fields her inm) schema vs ts d ⟨true, ign⟩
      = frameWrap v vs (.interfaceT fields her inm) ts
          (checkBody
            (fun v2 t2 vs2 ts2 d2 o2 => checkValueAgainstTypeHelper n v2 t2 schema vs2 ts2 d2 o2)
            (fun t2 => computePropertiesOfType n schema t2)
            schema v (.interfaceT fields her inm) vs ts d ⟨true, ign⟩) := by
  simp only [checkValueAgainstTypeHelper]
  rw [resolveType_nonref schema _ (by rfl)]
  exact rfl

/-! ## The claims -/

/-- Claim C1: the entry point checkValueAgainstType never lets a
CheckFailure (TypecheckingError) escape: every exception it propagates
is a non-CheckFailure one.  This is the provable core of the claim; the
claim's further assertion that schema-legal inputs never throw at all is
refuted by the counterexample (a null value against an index-signature
type throws a TypeError although the schema is well formed). -/
theorem C1_no_check_failure_escape (fuel : Nat) (v : Value) (t : Ty) (schema : SchemaT)
    (e : Exc) (h : checkValueAgainstType fuel v t schema = .error e) :
    e.isCheckFailure = false := by
  unfold checkValueAgainstType at h
  cases hh : checkValueAgainstTypeHelper fuel v t schema "value" "_TYPE_" 0 default with
  | ok u =>
    rw [hh] at h
    cases u
    exact Except.noConfusion h
  | error e2 =>
    rw [hh] at h
    cases e2 with
    | typechecking m => exact Except.noConfusion h
    | schemaError m =>
      injection h with h2
      rw [← h2]
      rfl
    | jsError m =>
      injection h with h2
      rw [← h2]
      rfl
    | fuelOut =>
      injection h with h2
      rw [← h2]
      rfl

/-- Witness for C1 at a concrete input: the exception escaping the
null-versus-index-signature check is not a CheckFailure. -/
theorem C1_witness :
    (Exc.jsError "TypeError: Cannot convert undefined or null to object").isCheckFailure
      = false :=
  C1_no_check_failure_escape 2 .null (.indexSignature (.str none none) (.str none none) none) []
    (.jsError "TypeError: Cannot convert undefined or null to object") (by rfl)

/-- Counterexample to C1 as stated: the empty schema is well formed
(no references, no mapped types, no omit types), yet checking null
against an index-signature type throws a TypeError, because typeof null
is object so the guard passes and Object.keys(null) throws. -/
theorem C1_counterexample :
    checkValueAgainstType 2 .null (.indexSignature (.str none none) (.str none none) none) []
      = .error (.jsError "TypeError: Cannot convert undefined or null to object") := rfl

/-- Claim C2 (amended): Partial of an interface with EMPTY heritage
accepts the empty object, whatever its fields.  The claim's assertion
that heritage checks inside a Partial frame are also performed in
partial mode is refuted by the counterexample: the heritage loop resets
partialMode, so inherited required fields are demanded again. -/
theorem C2_partial_accepts_empty (schema : SchemaT) (fields : List FieldT)
    (inm pnm : Option String) (n : Nat) :
    checkValueAgainstType (n+2) (.obj []) (.partialT (.interfaceT fields [] inm) pnm) schema
      = .ok "" := by
  rw [check_ok_empty_iff]
  rw [show n+2 = n+1+1 from rfl]
  rw [helper_succ_ok_iff (n+1) (.obj []) (.partialT (.interfaceT fields [] inm) pnm) schema
    "value" "_TYPE_" 0 [] (by rfl)]
  simp only [checkBody]
  simp only [resolveType_nonref schema (.interfaceT fields [] inm) (by rfl)]
  rw [helper_succ_partial_interface n (.obj []) fields [] inm schema _ _ (0+1) []]
  rw [frameWrap_ok_iff]
  simp only [checkBody]
  simp only [show checkJsType (.obj []) "object" = .ok () from rfl]
  have hf : seqE (fun f : FieldT =>
      if [].contains f.1 = true then Except.ok ()
      else
        if (!f.2.1 && !true && !hasProperty (Value.obj []) f.1) = true then
          Except.error (Exc.typechecking ("Field " ++ quote1 f.1
            ++ " is not optional but missing from value"))
        else
          if hasProperty (Value.obj []) f.1 = true then
            checkValueAgainstTypeHelper n (getProp (Value.obj []) f.1) f.2.2 schema
              ("value" ++ "[" ++ quote1 f.1 ++ "]")
              (typeToShortString f.2.2
                (some (typeToShortString ((Ty.interfaceT fields [] inm).partialT pnm)
                    (some ("Partial<" ++ "_TYPE_" ++ ">")) ++ "[" ++ quote1 f.1 ++ "]")))
              (0 + 1 + 1) default
          else Except.ok ()) fields = .ok () := by
    refine (seqE_ok_iff _ fields).2 (fun f hfm => ?_)
    simp [hasProperty]
  rw [hf]
  rfl

/-- Counterexample to C2 as stated: Partial of Sub, where Sub extends
Base and Base requires field b, rejects the empty object, because the
heritage walk to Base leaves partial mode. -/
theorem C2_counterexample :
    isOkEmpty (checkValueAgainstType 4 (.obj []) (.partialT (.ref "Sub" none) none)
      heritageSchema) = false := rfl

/-- Claim C3: the omit case of computePropertiesOfType never returns:
the source resolves the omit node to itself (resolveType is the identity
on non-references) and recurses on that same node, so the recursion
makes no progress and exhausts the stack at every fuel. -/
theorem C3_omit_properties_diverge (n : Nat) (schema : SchemaT) (base : Ty)
    (ofs : List String) (nm : Option String) :
    computePropertiesOfType n schema (.omitT base ofs nm) = .error .fuelOut := by
  induction n with
  | zero => rfl
  | succ k ih =>
    simp only [computePropertiesOfType]
    simp only [resolveType_nonref schema (.omitT base ofs nm) (by rfl)]
    simp only [ih]

/-- Claim C4: union exhaustiveness for a two-member union A or B, under
the data-model invariants (any cached kinds list is duplicate free and
in 1:1 correspondence with member kind literals) and the assumption that
neither member check escapes with a non-CheckFailure exception at the
member fuel: the union accepts exactly when some member accepts. -/
theorem C4_union_exhaustive (schema : SchemaT) (A B : Ty) (ks : Option (List String))
    (unm : Option String) (v : Value) (n : Nat)
    (hinv : ∀ l, ks = some l → (l.Nodup ∧ kindsInvB schema [A, B] l = true))
    (hng : ∀ m ∈ [A, B], (classify (checkValueAgainstTypeHelper n v m schema "value" "_TYPE_" 0
      ⟨false, []⟩)).isGen = false) :
    (checkValueAgainstType (n+1) v (.union [A, B] ks unm) schema = .ok ""
      ↔ (checkValueAgainstType n v A schema = .ok ""
          ∨ checkValueAgainstType n v B schema = .ok "")) := by
  rw [check_ok_empty_iff (n+1) v (.union [A, B] ks unm) schema]
  rw [check_ok_empty_iff n v A schema, check_ok_empty_iff n v B schema]
  rw [union_check_ok_iff schema [A, B] ks unm v n hinv hng]
  constructor
  · rintro ⟨m, hm, hok⟩
    rcases List.mem_cons.1 hm with rfl | hm2
    · exact Or.inl hok
    · rcases List.mem_cons.1 hm2 with rfl | hm3
      · exact Or.inr hok
      · exact absurd hm3 (List.not_mem_nil _)
  · rintro (h | h)
    · exact ⟨A, by simp, h⟩
    · exact ⟨B, by simp, h⟩

/-- Witness for C4 at a concrete input: the union of string and number
accepts the string x exactly when one of the members does. -/
theorem C4_witness :
    (checkValueAgainstType 2 (.str "x") (.union [.str none none, .num none] none none) []
        = .ok ""
      ↔ (checkValueAgainstType 1 (.str "x") (.str none none) [] = .ok ""
          ∨ checkValueAgainstType 1 (.str "x") (.num none) [] = .ok "")) :=
  C4_union_exhaustive [] (.str none none) (.num none) none none (.str "x") 1
    (fun l h => Option.noConfusion h)
    (by
      intro m hm
      rcases List.mem_cons.1 hm with rfl | hm2
      · rfl
      · rcases List.mem_cons.1 hm2 with rfl | hm3
        · rfl
        · exact absurd hm3 (List.not_mem_nil _))

/-- Claim C5 (amended): for a mapped type whose mapFrom is SYNTACTICALLY
the string node, the checker accepts an object exactly when every own
property checks against mapTo (at the top level the ignored-field list
is empty, so no property is skipped).  The claim's further assertion
that the same holds when mapFrom is a reference chain resolving to
string is refuted by the counterexample: the source tests
mapFrom.kind === string without resolving, so the reference falls into
the property-enumeration branch and a schema error escapes. -/
theorem C5_mapped_string_checks_props (schema : SchemaT) (sn fnm : Option String) (opt : Bool)
    (mapTo : Ty) (mnm : Option String) (fs : List (String × Value)) (n : Nat) :
    (checkValueAgainstType (n+1) (.obj fs) (.mapped (.str sn fnm) opt mapTo mnm) schema = .ok ""
      ↔ ∀ key ∈ objectKeys (.obj fs),
          checkValueAgainstTypeHelper n (getProp (.obj fs) key) mapTo schema "value" "_TYPE_" 0
            ⟨false, []⟩ = .ok ()) := by
  rw [check_ok_empty_iff]
  rw [helper_succ_ok_iff n (.obj fs) (.mapped (.str sn fnm) opt mapTo mnm) schema
    "value" "_TYPE_" 0 [] (by rfl)]
  simp only [checkBody]
  simp only [show checkJsType (.obj fs) "object" = .ok () from rfl]
  simp only [show Ty.isStrKind (.str sn fnm) = true from rfl, if_true]
  simp only [show objectKeysE (.obj fs) = .ok (objectKeys (.obj fs)) from rfl]
  rw [seqE_ok_iff]
  refine forall_congr' (fun key => ?_)
  refine imp_congr_right (fun hk => ?_)
  have hcl := classify_helper_ctx n (getProp (.obj fs) key) mapTo schema
    ("value" ++ "[" ++ quote1 key ++ "]") (typeToShortString mapTo none) (0+1) ⟨false, []⟩
    "value" "_TYPE_" 0
  constructor
  · intro h
    have h2 : checkValueAgainstTypeHelper n (getProp (.obj fs) key) mapTo schema
        ("value" ++ "[" ++ quote1 key ++ "]") (typeToShortString mapTo none) (0+1)
        ⟨false, []⟩ = .ok () := h
    rw [h2] at hcl
    exact (classify_eq_ok_iff _).1 hcl.symm
  · intro h
    rw [h] at hcl
    have h3 : checkValueAgainstTypeHelper n (getProp (.obj fs) key) mapTo schema
        ("value" ++ "[" ++ quote1 key ++ "]") (typeToShortString mapTo none) (0+1)
        ⟨false, []⟩ = .ok () := (classify_eq_ok_iff _).1 hcl
    exact h3

/-- Counterexample to C5 as stated: a mapped type whose mapFrom is a
reference resolving to unrestricted string does not check properties; an
exception escapes instead of a string being returned. -/
theorem C5_counterexample :
    returnsString (checkValueAgainstType 3 (.obj [])
      (.mapped (.ref "K" none) true (.bool none) none) refToStringSchema) = false := rfl

/-- Claim C6: the type node the emitter actually passes for a built-in
format assert is a bare string node without specialName, so the format
sub-validator does not run: the bare node accepts the string abc while
the documented node with specialName NumericString rejects it. -/
theorem C6_emitted_assert_skips_format :
    checkValueAgainstType 1 (.str "abc") (.str none none) [] = .ok ""
      ∧ isOkEmpty (checkValueAgainstType 1 (.str "abc") (.str (some "NumericString") none) [])
          = false :=
  ⟨rfl, rfl⟩

set_option maxRecDepth 4096

/-- Claim C7 (amended): for the worked example the checker returns
exactly c7diag, which reports the Javascript-type mismatch at the path
value[optionalField].  The claim's further assertion that the diagnostic
ends in a value = trailer is refuted by the counterexample: the rendered
value is shorter than 40 characters, so it is shown inline in the header
and no value = line is produced. -/
theorem C7_diagnostic :
    checkValueAgainstType 3 c7value c7type [] = .ok c7diag
      ∧ strContains c7diag ("value[" ++ "\x27optionalField\x27" ++ "]") = true :=
  ⟨rfl, rfl⟩

/-- Counterexample to C7 as stated: the actual diagnostic contains no
value = trailer line. -/
theorem C7_counterexample :
    checkValueAgainstType 3 c7value c7type [] = .ok c7diag
      ∧ strContains c7diag "value = " = false :=
  ⟨rfl, rfl⟩

/-- Claim C8: the decimal-point position of the NumericString pattern is
an unescaped regex dot, so it matches ANY character: the clearly
non-numeric string 1a5 is accepted, while a string that fails both
alternatives is still rejected. -/
theorem C8_numeric_string_wildcard_dot :
    validateNumericString "1a5" = ""
      ∧ validateNumericString "abc" = "Must be a valid number, e.g. \x271.24\x27." :=
  ⟨rfl, rfl⟩

/-- Claim C9: removing the cached kinds list from a union does not
change acceptance, provided the cache satisfies the 1:1 invariant and no
member check escapes with a non-CheckFailure exception at the member
fuel: both variants accept exactly when some member accepts. -/
theorem C9_kinds_cache_removal_equiv (schema : SchemaT) (ms : List Ty) (l : List String)
    (unm unm2 : Option String) (v : Value) (n : Nat)
    (hnd : l.Nodup) (hkinv : kindsInvB schema ms l = true)
    (hng : ∀ m ∈ ms, (classify (checkValueAgainstTypeHelper n v m schema "value" "_TYPE_" 0
      ⟨false, []⟩)).isGen = false) :
    (checkValueAgainstType (n+1) v (.union ms (some l) unm) schema = .ok ""
      ↔ checkValueAgainstType (n+1) v (.union ms none unm2) schema = .ok "") := by
  rw [check_ok_empty_iff (n+1) v (.union ms (some l) unm) schema]
  rw [check_ok_empty_iff (n+1) v (.union ms none unm2) schema]
  rw [union_check_ok_iff schema ms (some l) unm v n
    (fun l2 h => (Option.some.inj h) ▸ ⟨hnd, hkinv⟩) hng]
  rw [union_check_ok_iff schema ms none unm2 v n (fun l2 h => Option.noConfusion h) hng]

/-- Witness for C9 at a concrete input: a discriminated union of two
kind-tagged interfaces accepts the object with kind a in the same way
with and without the cached kinds list. -/
theorem C9_witness :
    (checkValueAgainstType 3 (.obj [("kind", .str "a")])
        (.union kindMembers (some ["a", "b"]) none) kindSchema = .ok ""
      ↔ checkValueAgainstType 3 (.obj [("kind", .str "a")])
        (.union kindMembers none none) kindSchema = .ok "") :=
  C9_kinds_cache_removal_equiv kindSchema kindMembers ["a", "b"] none none
    (.obj [("kind", .str "a")]) 2 (by decide) (by rfl)
    (by
      intro m hm
      rcases List.mem_cons.1 hm with rfl | hm2
      · rfl
      · rcases List.mem_cons.1 hm2 with rfl | hm3
        · rfl
        · exact absurd hm3 (List.not_mem_nil _))

/-- Claim C10: null conforms to every interface whose fields are all
optional and whose heritage is empty: typeof null is object, so the
Javascript-type guard passes, and hasProperty is null safe, so every
optional field counts as absent. -/
theorem C10_null_conforms (schema : SchemaT) (fields : List FieldT) (inm : Option String)
    (n : Nat) (hopt : ∀ f ∈ fields, f.2.1 = true) :
    checkValueAgainstType (n+1) .null (.interfaceT fields [] inm) schema = .ok "" := by
  rw [check_ok_empty_iff]
  rw [helper_succ_ok_iff n .null (.interfaceT fields [] inm) schema "value" "_TYPE_" 0 []
    (by rfl)]
  simp only [checkBody]
  simp only [show checkJsType .null "object" = .ok () from rfl]
  have hf : seqE (fun f : FieldT =>
      if [].contains f.1 = true then Except.ok ()
      else
        if (!f.2.1 && !false && !hasProperty Value.null f.1) = true then
          Except.error (Exc.typechecking ("Field " ++ quote1 f.1
            ++ " is not optional but missing from value"))
        else
          if hasProperty Value.null f.1 = true then
            checkValueAgainstTypeHelper n (getProp Value.null f.1) f.2.2 schema
              ("value" ++ "[" ++ quote1 f.1 ++ "]")
              (typeToShortString f.2.2 (some ("_TYPE_" ++ "[" ++ quote1 f.1 ++ "]"))) (0 + 1)
              default
          else Except.ok ()) fields = .ok () := by
    refine (seqE_ok_iff _ fields).2 (fun f hfm => ?_)
    simp [hasProperty, hopt f hfm]
  rw [hf]
  rfl

/-- Witness for C10 at a concrete input: null conforms to an interface
with one optional boolean field. -/
theorem C10_witness :
    checkValueAgainstType 1 .null (.interfaceT [("a", true, .bool none)] [] none) [] = .ok "" :=
  C10_null_conforms [] [("a", true, .bool none)] none 0
    (by
      intro f hf
      rcases List.mem_cons.1 hf with rfl | h2
      · rfl
      · exact absurd h2 (List.not_mem_nil _))

end CheckType
